import Mathlib

/-!
Verification of the SkillBase SDK resilient request-execution pipeline.

The definitions below are a shallow embedding of the mobile-ready
TypeScript client in `src/sdk/src/types.ts` (the `SkillBaseClient` with
retry mechanism and token refresh, lines 548-1174).  The transport
(`fetch` plus `response.json()`) is modelled as an oracle assigning a
`FetchResult` to every physical send, numbered globally in the order the
sends happen.  Wall-clock waiting (`sleep`) and credential mutations are
recorded as events in a trace.
-/

namespace Skillbase

/-- Which URL a physical send goes to.  `main` stands for the URL of the
request under scrutiny, `refresh` for `POST /auth/refresh` issued by
`refreshTokenInternal`, `eventsPost`/`eventsGet` for the two requests
made by `createEvent`. -/
inductive Target where
  | main
  | refresh
  | eventsPost
  | eventsGet
deriving DecidableEq, Repr

/-- The `Event` interface (types.ts lines 8-23).  Fields that are
optional in TypeScript are `Option`s; `id` is an `Option` because the
synthesized object in `createEvent` copies `response.eventId`, which may
be absent from the parsed body. -/
structure EventObj where
  id : Option String
  projectId : String
  userId : Option String
  name : String
  value : Option Int
  metadata : Option (List (String × String))
  createdAt : String
deriving DecidableEq, Repr

/-- The dynamically-typed payload of a parsed JSON body.  The TypeScript
code casts `await response.json()` to whatever `T` it expects and then
reads fields dynamically; reading a field the payload does not have
yields `undefined`, modelled as `none` by the accessors below. -/
inductive Payload where
  | auth (accessToken : Option String)
  | createEventResp (success : Bool) (eventId : Option String)
  | eventList (events : List EventObj)
  | obj
deriving DecidableEq, Repr

/-- Result of `await response.json()`: either the body parses (with an
optional `message` field used for error messages) or parsing throws. -/
inductive JsonBody where
  | malformed (raw : String)
  | parsed (message : Option String) (payload : Payload)
deriving DecidableEq, Repr

/-- Dynamic access to `data.accessToken`. -/
def JsonBody.accessTokenField : JsonBody → Option String
  | .parsed _ (.auth t) => t
  | _ => none

/-- Dynamic access to `data.eventId`. -/
def JsonBody.eventIdField : JsonBody → Option String
  | .parsed _ (.createEventResp _ i) => i
  | _ => none

/-- Dynamic access to the event array (an empty list when the payload is
not an array; `createEvent` treats a failed lookup and a shape mismatch
the same way, falling back to the synthesized object). -/
def JsonBody.eventsField : JsonBody → List EventObj
  | .parsed _ (.eventList es) => es
  | _ => []

/-- The `SkillBaseError` class (types.ts lines 110-120): message,
optional `statusCode`, and the `response` payload attached to the error
(the parsed body for HTTP errors; `none` when the cause was an
exception). -/
structure SbError where
  message : String
  statusCode : Option Nat
  responseBody : Option JsonBody
deriving DecidableEq, Repr

/-- One physical transport outcome, as observed through
`fetch` + `response.json()`:
* `netFail` — `fetch` rejects with a `TypeError` whose message contains
  `fetch` (the network-error branch, lines 803-817);
* `otherFail` — `fetch` rejects with any other exception (lines 819-824);
* `response` — a completed exchange with a status code and a body. -/
inductive FetchResult where
  | netFail
  | otherFail (msg : String)
  | response (status : Nat) (body : JsonBody)
deriving DecidableEq, Repr

/-- The mutable client fields relevant to the executor
(types.ts lines 569-576; `baseUrl` strings are not modelled since the
claims never depend on them). -/
structure ClientState where
  apiKey : Option String
  jwt : Option String
  maxRetries : Nat
  retryDelay : Nat
  autoRefreshToken : Bool
deriving DecidableEq, Repr

/-- Observable events of a run: physical sends and the delivery of their
outcomes, backoff sleeps (tagged with the loop that slept), entries into
`refreshTokenInternal`, and session-token mutations (`setJwt` also
stands for the `onTokenRefresh` persistence hook, which `setJwt` invokes
exactly once per call, lines 633-638). -/
inductive Ev where
  | send (t : Target)
  | recv (t : Target) (r : FetchResult)
  | sleepMs (t : Target) (ms : Nat)
  | refreshCall
  | setJwtEv (token : String)
  | clearJwtEv
deriving DecidableEq, Repr

/-- `response.ok` for the Fetch API: status in 200..299. -/
def respOk (status : Nat) : Bool :=
  decide (200 ≤ status) && decide (status ≤ 299)

/-- `isRetryableError` (types.ts lines 664-674): retry on status 0
(network) or 5xx, and on 401 when a JWT is present and auto-refresh is
enabled. -/
def isRetryableError (st : ClientState) (e : SbError) : Bool :=
  match e.statusCode with
  | none => false
  | some s =>
    (s == 0) || decide (500 ≤ s) ||
      ((s == 401) && st.jwt.isSome && st.autoRefreshToken)

/-- `data.message || "HTTP <status>"` — JavaScript `||` falls through on
the empty string as well as on a missing field. -/
def errMessage : Option String → Nat → String
  | some m, status => if m == "" then "HTTP " ++ toString status else m
  | none, status => "HTTP " ++ toString status

/-- The error built in the network branch (lines 804-808). -/
def netError : SbError :=
  { message := "Network error: Unable to connect to the API"
    statusCode := some 0, responseBody := none }

/-- The error thrown when `requireAuth` holds but neither credential is
set (lines 746-750); the caught exception is attached as `response`,
which is not a body, hence `none`. -/
def noAuthError : SbError :=
  { message := "No authentication method available"
    statusCode := some 401, responseBody := none }

/-- The error produced when `response.json()` throws: the `SyntaxError`
falls through to the final catch branch (lines 819-824), which attaches
status 0 and the exception itself.  The message is modelled as a
function of the raw body text. -/
def parseFailure (raw : String) : SbError :=
  { message := "Unexpected token in JSON: " ++ raw
    statusCode := some 0, responseBody := none }

/-- The fallback thrown after the loop (line 828), dead in practice. -/
def exhaustedError : SbError :=
  { message := "Request failed after retries"
    statusCode := some 0, responseBody := none }

/-- What one failure does to the control flow of the loop: retry after a
backoff sleep, or propagate out of `request`. -/
inductive ErrStep where
  | retry (e : SbError) (d : Nat)
  | thrown (e : SbError)
deriving DecidableEq, Repr

/-- The catch-block treatment of a `SkillBaseError` (lines 785-800; the
in-`try` treatment at lines 768-780 tests the identical condition, so a
throw from there lands in the catch and reproduces the same decision):
retry when the error is retryable, retries remain and `retryOnAuth`
holds; the backoff delay is `retryDelay * 2 ^ attempt`. -/
def handleSbe (st : ClientState) (retryOnAuth : Bool) (attempt : Nat)
    (e : SbError) : ErrStep :=
  if isRetryableError st e && decide (attempt < st.maxRetries) && retryOnAuth then
    .retry e (st.retryDelay * 2 ^ attempt)
  else
    .thrown e

/-- The network-error branch (lines 803-817): retried whenever retries
remain — this branch does not consult `retryOnAuth`. -/
def handleNet (st : ClientState) (attempt : Nat) : ErrStep :=
  if decide (attempt < st.maxRetries) then
    .retry netError (st.retryDelay * 2 ^ attempt)
  else
    .thrown netError

/-- Evaluation of a delivered transport outcome (lines 759-824), shared
between the sequential executor and the interleaved machine:
* network failure → `handleNet`;
* other exception → thrown with status 0;
* `response.json()` throws (note: `json()` runs before the `ok` check)
  → thrown `parseFailure`;
* non-ok response → a `SkillBaseError` carrying the status and the
  parsed body, dispatched through `handleSbe`;
* ok response → the parsed body is returned. -/
def evalResponse (st : ClientState) (retryOnAuth : Bool) (attempt : Nat) :
    FetchResult → ErrStep ⊕ JsonBody
  | .netFail => .inl (handleNet st attempt)
  | .otherFail msg => .inl (.thrown { message := msg, statusCode := some 0, responseBody := none })
  | .response status body =>
    match body with
    | .malformed raw => .inl (.thrown (parseFailure raw))
    | .parsed msg _ =>
      if respOk status then
        .inr body
      else
        .inl (handleSbe st retryOnAuth attempt
          { message := errMessage msg status, statusCode := some status
            responseBody := some body })

/-- Outcome of one iteration of the `for` loop in `request`. -/
inductive IterOut where
  | success (b : JsonBody)
  | failed (e : SbError)
  | again (e : SbError) (d : Nat)
deriving Repr

/-- Result of `refreshTokenInternal`. -/
structure RefreshOut where
  result : Except SbError Unit
  st : ClientState
  k : Nat
  trace : List Ev

/-- Result of `request`: the returned body or the thrown error, the
client state afterwards, the next global send index, and the trace. -/
structure ReqOut where
  result : Except SbError JsonBody
  st : ClientState
  k : Nat
  trace : List Ev

/-- Header resolution and fetch of one iteration (lines 734-824, minus
the refresh prologue).  When `requireAuth` holds, no Authorization
header was supplied by the caller and neither credential is set,
`getAuthHeader` throws and a 401 `SkillBaseError` is raised before any
network call; otherwise the next transport outcome is consumed. -/
def iterFetch (transport : Nat → FetchResult)
    (retryOnAuth requireAuth hasAuthHeader : Bool) (target : Target)
    (attempt : Nat) (st : ClientState) (k : Nat) :
    IterOut × ClientState × Nat × List Ev :=
  if requireAuth && !hasAuthHeader && !st.apiKey.isSome && !st.jwt.isSome then
    match handleSbe st retryOnAuth attempt noAuthError with
    | .retry e d => (.again e d, st, k, [])
    | .thrown e => (.failed e, st, k, [])
  else
    let res := transport k
    let tr := [Ev.send target, Ev.recv target res]
    match evalResponse st retryOnAuth attempt res with
    | .inr body => (.success body, st, k + 1, tr)
    | .inl (.retry e d) => (.again e d, st, k + 1, tr)
    | .inl (.thrown e) => (.failed e, st, k + 1, tr)

/-- One full iteration of the loop in `request` (lines 717-824): the
refresh prologue (lines 718-732) followed by header resolution, fetch
and evaluation.  A failure of the nested refresh makes the iteration
rethrow the saved `lastError` (line 730), which the catch block then
subjects to the usual retry test. -/
def iterBody (transport : Nat → FetchResult)
    (refresh : ClientState → Nat → RefreshOut)
    (retryOnAuth requireAuth hasAuthHeader : Bool) (target : Target)
    (attempt : Nat) (st : ClientState) (k : Nat) (lastError : Option SbError) :
    IterOut × ClientState × Nat × List Ev :=
  match lastError with
  | some le =>
    if decide (0 < attempt) && (le.statusCode == some 401) && st.jwt.isSome
        && st.autoRefreshToken && retryOnAuth then
      let r := refresh st k
      match r.result with
      | .ok _ =>
        let f := iterFetch transport retryOnAuth requireAuth hasAuthHeader target attempt r.st r.k
        (f.1, f.2.1, f.2.2.1, (Ev.refreshCall :: r.trace) ++ f.2.2.2)
      | .error _ =>
        match handleSbe r.st retryOnAuth attempt le with
        | .retry e d => (.again e d, r.st, r.k, Ev.refreshCall :: r.trace)
        | .thrown e => (.failed e, r.st, r.k, Ev.refreshCall :: r.trace)
    else
      iterFetch transport retryOnAuth requireAuth hasAuthHeader target attempt st k
  | none =>
    iterFetch transport retryOnAuth requireAuth hasAuthHeader target attempt st k

/-- The retry loop of `request` (lines 714-828), with `fuel` counting
the remaining iterations: the loop runs `attempt` from 0 through
`maxRetries`, so the top-level entry uses `fuel = maxRetries + 1`.  The
zero-fuel case is the post-loop `throw lastError || ...` (line 828). -/
def reqLoopCore (transport : Nat → FetchResult)
    (refresh : ClientState → Nat → RefreshOut)
    (retryOnAuth requireAuth hasAuthHeader : Bool) (target : Target) :
    Nat → Nat → ClientState → Nat → Option SbError → ReqOut
  | 0, _, st, k, lastError =>
    { result := .error (lastError.getD exhaustedError), st := st, k := k, trace := [] }
  | fuel + 1, attempt, st, k, lastError =>
    match iterBody transport refresh retryOnAuth requireAuth hasAuthHeader target attempt st k lastError with
    | (.success b, st', k', tr) => { result := .ok b, st := st', k := k', trace := tr }
    | (.failed e, st', k', tr) => { result := .error e, st := st', k := k', trace := tr }
    | (.again e d, st', k', tr) =>
      let rest := reqLoopCore transport refresh retryOnAuth requireAuth hasAuthHeader target
        fuel (attempt + 1) st' k' (some e)
      { result := rest.result, st := rest.st, k := rest.k
        trace := tr ++ Ev.sleepMs target d :: rest.trace }

/-- A refresher that is never consulted: passed where the source runs
with `retryOnAuth = false`, which makes the refresh prologue dead. -/
def dummyRefresh (st : ClientState) (k : Nat) : RefreshOut :=
  { result := .ok (), st := st, k := k, trace := [] }

/-- `refreshTokenInternal` (lines 679-702): guard on a missing JWT
(throws a plain `Error` before the try block, so no `clearJwt`), then a
nested `request` on `POST /auth/refresh` with `retryOnAuth = false` (and
`requireAuth` left at its default `true`, no pre-set header).  On
success `setJwt` stores the new token when one came back; on any error
the JWT is cleared and the error rethrown. -/
def refreshTokenInternal (transport : Nat → FetchResult) (st : ClientState)
    (k : Nat) : RefreshOut :=
  match st.jwt with
  | none =>
    { result := .error { message := "No JWT token to refresh", statusCode := none, responseBody := none }
      st := st, k := k, trace := [] }
  | some _ =>
    let out := reqLoopCore transport dummyRefresh false true false Target.refresh
      (st.maxRetries + 1) 0 st k none
    match out.result with
    | .ok body =>
      match body.accessTokenField with
      | some t =>
        { result := .ok (), st := { out.st with jwt := some t }, k := out.k
          trace := out.trace ++ [Ev.setJwtEv t] }
      | none => { result := .ok (), st := out.st, k := out.k, trace := out.trace }
    | .error e =>
      { result := .error e, st := { out.st with jwt := none }, k := out.k
        trace := out.trace ++ [Ev.clearJwtEv] }

/-- `request` (lines 708-829): the loop with full fuel, starting at
attempt 0 with no recorded error, using `refreshTokenInternal` as the
refresher.  `k` is the global index of the next physical send. -/
def request (transport : Nat → FetchResult)
    (retryOnAuth requireAuth hasAuthHeader : Bool) (target : Target)
    (st : ClientState) (k : Nat) : ReqOut :=
  reqLoopCore transport (refreshTokenInternal transport) retryOnAuth requireAuth
    hasAuthHeader target (st.maxRetries + 1) 0 st k none

/-- Number of physical sends to `t` recorded in a trace. -/
def countSends (t : Target) : List Ev → Nat
  | [] => 0
  | .send t' :: tr => (if t' == t then 1 else 0) + countSends t tr
  | _ :: tr => countSends t tr

/-- Number of entries into `refreshTokenInternal` recorded in a trace. -/
def countRefreshCalls : List Ev → Nat
  | [] => 0
  | .refreshCall :: tr => 1 + countRefreshCalls tr
  | _ :: tr => countRefreshCalls tr

/-- Number of `clearJwt` calls recorded in a trace. -/
def countClears : List Ev → Nat
  | [] => 0
  | .clearJwtEv :: tr => 1 + countClears tr
  | _ :: tr => countClears tr

/-- The target a trace event belongs to, when it belongs to one. -/
def evTarget : Ev → Option Target
  | .send t => some t
  | .recv t _ => some t
  | .sleepMs t _ => some t
  | _ => none

/-- The events of a trace belonging to target `t`, in order. -/
def evsOf (t : Target) : List Ev → List Ev
  | [] => []
  | ev :: tr => if evTarget ev == some t then ev :: evsOf t tr else evsOf t tr

/-- The backoff sleeps of target `t`, in order. -/
def sleepsOf (t : Target) : List Ev → List Nat
  | [] => []
  | .sleepMs t' d :: tr => if t' == t then d :: sleepsOf t tr else sleepsOf t tr
  | _ :: tr => sleepsOf t tr

/-- The transport outcomes the spec calls `ClientError` (a 4xx other
than 401, with a body that parses) and `ParseError` (a JSON decode
failure on a 2xx response). -/
def offendingOutcome : FetchResult → Bool
  | .response s b =>
    match b with
    | .malformed _ => respOk s
    | .parsed _ _ => decide (400 ≤ s) && decide (s ≤ 499) && !(s == 401)
  | _ => false

/-- Number of physical sends of the main request that happen after some
delivery of a `ClientError`/`ParseError` outcome to the main request. -/
def sendsAfterOffense : List Ev → Nat
  | [] => 0
  | .recv .main r :: tr =>
    if offendingOutcome r then countSends Target.main tr else sendsAfterOffense tr
  | _ :: tr => sendsAfterOffense tr

/-- Result of a typed endpoint call. -/
structure EndpointOut where
  result : Except SbError JsonBody
  st : ClientState
  trace : List Ev

/-- `register` (lines 850-871): `retryOnAuth = false` ("Don't retry
registration"), `requireAuth = false`, no pre-set header; on success
with an `accessToken`, `setJwt` stores it. -/
def register (transport : Nat → FetchResult) (st : ClientState) : EndpointOut :=
  let out := request transport false false false Target.main st 0
  match out.result with
  | .ok body =>
    match body.accessTokenField with
    | some t =>
      { result := out.result, st := { out.st with jwt := some t }
        trace := out.trace ++ [Ev.setJwtEv t] }
    | none => { result := out.result, st := out.st, trace := out.trace }
  | .error _ => { result := out.result, st := out.st, trace := out.trace }

/-- `login` (lines 887-904): the same policy as `register`. -/
def login (transport : Nat → FetchResult) (st : ClientState) : EndpointOut :=
  let out := request transport false false false Target.main st 0
  match out.result with
  | .ok body =>
    match body.accessTokenField with
    | some t =>
      { result := out.result, st := { out.st with jwt := some t }
        trace := out.trace ++ [Ev.setJwtEv t] }
    | none => { result := out.result, st := out.st, trace := out.trace }
  | .error _ => { result := out.result, st := out.st, trace := out.trace }

/-- The public `refreshToken` (lines 924-944): guard on a missing JWT,
then a `request` with `retryOnAuth = false` ("Don't retry token
refresh"); `requireAuth` is left at its default `true`.  Unlike
`refreshTokenInternal`, a failure does not clear the JWT here. -/
def refreshToken (transport : Nat → FetchResult) (st : ClientState) : EndpointOut :=
  match st.jwt with
  | none =>
    { result := .error { message := "No JWT token to refresh", statusCode := some 401, responseBody := none }
      st := st, trace := [] }
  | some _ =>
    let out := request transport false true false Target.main st 0
    match out.result with
    | .ok body =>
      match body.accessTokenField with
      | some t =>
        { result := out.result, st := { out.st with jwt := some t }
          trace := out.trace ++ [Ev.setJwtEv t] }
      | none => { result := out.result, st := out.st, trace := out.trace }
    | .error _ => { result := out.result, st := out.st, trace := out.trace }

/-- `getAuthHeader` (lines 620-628): the API key is preferred over the
JWT; `none` models the throw when neither is set. -/
def getAuthHeaderOpt (st : ClientState) : Option String :=
  match st.apiKey with
  | some key => some ("Bearer " ++ key)
  | none =>
    match st.jwt with
    | some j => some ("Bearer " ++ j)
    | none => none

/-- The `POST /v1/events` request issued by `createEvent` (lines
1105-1119): an Authorization header is supplied by the caller, the
executor defaults apply (`retryOnAuth = true`, `requireAuth = true`). -/
def createEventPost (transport : Nat → FetchResult) (st : ClientState) : ReqOut :=
  request transport true true true Target.eventsPost st 0

/-- The follow-up `GET /v1/events` request issued by `createEvent`
through `getEvents` (lines 1122-1123 and 1161-1173), continuing the
global send numbering after the POST. -/
def createEventFetch (transport : Nat → FetchResult) (st : ClientState) : ReqOut :=
  let o := createEventPost transport st
  request transport true true true Target.eventsGet o.st o.k

/-- `response.eventId` of the POST, when the POST succeeded. -/
def createdEventId (transport : Nat → FetchResult) (st : ClientState) : Option String :=
  match (createEventPost transport st).result with
  | .ok b => b.eventIdField
  | .error _ => none

/-- The minimal event object synthesized by `createEvent` (lines
1133-1141): `projectId` is the empty string and `createdAt` is `now`,
the client-side `new Date().toISOString()` passed in as a parameter. -/
def fallbackEvent (transport : Nat → FetchResult) (st : ClientState)
    (userId name : String) (value : Option Int)
    (metadata : Option (List (String × String))) (now : String) : EventObj :=
  { id := createdEventId transport st, projectId := "", userId := some userId
    name := name, value := value, metadata := metadata, createdAt := now }

/-- The `events.find((e) => e.id === response.eventId)` lookup (line
1124), `none` when the follow-up fetch failed. -/
def foundCreatedEvent (transport : Nat → FetchResult) (st : ClientState) : Option EventObj :=
  match (createEventFetch transport st).result with
  | .ok b => b.eventsField.find? (fun e => e.id == createdEventId transport st)
  | .error _ => none

/-- Result of `createEvent`. -/
structure CreateEventOut where
  result : Except SbError EventObj
  st : ClientState
  trace : List Ev

/-- `createEvent` (lines 1099-1142): `getAuthHeader` is evaluated
eagerly while building the headers (throwing a plain `Error` when no
credential is set), then the POST; on its success, `getEvents(userId)`
is attempted inside a try — a synchronous `getAuthHeader` throw inside
`getEvents` or a failure of the GET both fall through to the
synthesized fallback object, as does a lookup miss. -/
def createEvent (transport : Nat → FetchResult) (st : ClientState)
    (userId name : String) (value : Option Int)
    (metadata : Option (List (String × String))) (now : String) : CreateEventOut :=
  match getAuthHeaderOpt st with
  | none =>
    { result := .error { message := "No authentication method available", statusCode := none, responseBody := none }
      st := st, trace := [] }
  | some _ =>
    let o1 := createEventPost transport st
    match o1.result with
    | .error e => { result := .error e, st := o1.st, trace := o1.trace }
    | .ok b =>
      let fb : EventObj :=
        { id := b.eventIdField, projectId := "", userId := some userId
          name := name, value := value, metadata := metadata, createdAt := now }
      match getAuthHeaderOpt o1.st with
      | none => { result := .ok fb, st := o1.st, trace := o1.trace }
      | some _ =>
        let o2 := request transport true true true Target.eventsGet o1.st o1.k
        match o2.result with
        | .error _ => { result := .ok fb, st := o2.st, trace := o1.trace ++ o2.trace }
        | .ok b2 =>
          match b2.eventsField.find? (fun e => e.id == b.eventIdField) with
          | some ev => { result := .ok ev, st := o2.st, trace := o1.trace ++ o2.trace }
          | none => { result := .ok fb, st := o2.st, trace := o1.trace ++ o2.trace }

/-!
An interleaved small-step model of several logically concurrent `request`
executions sharing one client (single-threaded cooperative scheduling,
spec section 5).  Control yields only at the suspension points of the
source — the awaited fetch and the backoff sleep — so each step below
runs the synchronous code between two suspension points.  The shared
mutable state is the client's `jwt` field; the decision logic reuses the
functions above, so every branch corresponds to the same source lines.
-/

/-- The loop-local variables of one `request` execution: the attempt
index and the saved `lastError`. -/
structure Frame where
  attempt : Nat
  lastError : Option SbError
deriving DecidableEq, Repr

/-- Where a nested `refreshTokenInternal` execution is suspended:
waiting on its fetch, or sleeping before a network retry. -/
inductive RPhase where
  | waitRefresh (rf : Frame) (pending : FetchResult)
  | sleepingR (rf : Frame)
deriving DecidableEq, Repr

/-- Where one `request` execution is suspended. -/
inductive Phase where
  | start (f : Frame)
  | refreshing (f : Frame) (rp : RPhase)
  | waitR (f : Frame) (pending : FetchResult)
  | sleeping (f : Frame)
  | finished (r : Except SbError JsonBody)
deriving Repr

/-- Header resolution and fetch issue for one iteration of the outer
loop (lines 734-757): run synchronously from the top of the iteration
to the `await fetch`. -/
def phaseFetch (retryOnAuth requireAuth hasAuthHeader : Bool)
    (transport : Nat → FetchResult) (sh : ClientState) (k : Nat)
    (f : Frame) : Phase × ClientState × Nat × List Ev :=
  if requireAuth && !hasAuthHeader && !sh.apiKey.isSome && !sh.jwt.isSome then
    match handleSbe sh retryOnAuth f.attempt noAuthError with
    | .retry e d => (.sleeping ⟨f.attempt + 1, some e⟩, sh, k, [Ev.sleepMs Target.main d])
    | .thrown e => (.finished (.error e), sh, k, [])
  else
    (.waitR f (transport k), sh, k + 1, [Ev.send Target.main])

/-- Entry into (or wake-up inside) the nested refresh request's loop
(`retryOnAuth = false`, `requireAuth = true`, no pre-set header, target
`refresh`): loop-exhaustion check, header resolution, fetch issue.
`Sum.inr` is the error the nested `request` throws synchronously. -/
def refreshStart (transport : Nat → FetchResult) (sh : ClientState)
    (k : Nat) (rf : Frame) : (RPhase ⊕ SbError) × Nat × List Ev :=
  if decide (sh.maxRetries < rf.attempt) then
    (.inr (rf.lastError.getD exhaustedError), k, [])
  else if !sh.apiKey.isSome && !sh.jwt.isSome then
    match handleSbe sh false rf.attempt noAuthError with
    | .retry e d => (.inl (.sleepingR ⟨rf.attempt + 1, some e⟩), k, [Ev.sleepMs Target.refresh d])
    | .thrown e => (.inr e, k, [])
  else
    (.inl (.waitRefresh rf (transport k)), k + 1, [Ev.send Target.refresh])

/-- The nested refresh threw: `refreshTokenInternal` clears the JWT and
rethrows, `request` rethrows the saved `lastError` (line 730), and the
catch block decides between retry and propagation. -/
def refreshFailed (retryOnAuth : Bool) (sh : ClientState) (k : Nat)
    (f : Frame) (preTr : List Ev) : Phase × ClientState × Nat × List Ev :=
  let sh' := { sh with jwt := none }
  match handleSbe sh' retryOnAuth f.attempt (f.lastError.getD exhaustedError) with
  | .retry e d =>
    (.sleeping ⟨f.attempt + 1, some e⟩, sh', k, preTr ++ [Ev.clearJwtEv, Ev.sleepMs Target.main d])
  | .thrown e => (.finished (.error e), sh', k, preTr ++ [Ev.clearJwtEv])

/-- One step of one `request` execution against the shared state: runs
the synchronous code from the execution's current suspension point to
its next one. -/
def stepPhase (retryOnAuth requireAuth hasAuthHeader : Bool)
    (transport : Nat → FetchResult) (sh : ClientState) (k : Nat) :
    Phase → Phase × ClientState × Nat × List Ev
  | .finished r => (.finished r, sh, k, [])
  | .sleeping f => (.start f, sh, k, [])
  | .start f =>
    if decide (sh.maxRetries < f.attempt) then
      (.finished (.error (f.lastError.getD exhaustedError)), sh, k, [])
    else
      match f.lastError with
      | some le =>
        if decide (0 < f.attempt) && (le.statusCode == some 401) && sh.jwt.isSome
            && sh.autoRefreshToken && retryOnAuth then
          match sh.jwt with
          | none =>
            match handleSbe sh retryOnAuth f.attempt le with
            | .retry e d =>
              (.sleeping ⟨f.attempt + 1, some e⟩, sh, k, [Ev.refreshCall, Ev.sleepMs Target.main d])
            | .thrown e => (.finished (.error e), sh, k, [Ev.refreshCall])
          | some _ =>
            match refreshStart transport sh k ⟨0, none⟩ with
            | (.inl rp, k', tr) => (.refreshing f rp, sh, k', Ev.refreshCall :: tr)
            | (.inr _, k', tr) => refreshFailed retryOnAuth sh k' f (Ev.refreshCall :: tr)
        else phaseFetch retryOnAuth requireAuth hasAuthHeader transport sh k f
      | none => phaseFetch retryOnAuth requireAuth hasAuthHeader transport sh k f
  | .waitR f res =>
    match evalResponse sh retryOnAuth f.attempt res with
    | .inr body => (.finished (.ok body), sh, k, [Ev.recv Target.main res])
    | .inl (.retry e d) =>
      (.sleeping ⟨f.attempt + 1, some e⟩, sh, k, [Ev.recv Target.main res, Ev.sleepMs Target.main d])
    | .inl (.thrown e) => (.finished (.error e), sh, k, [Ev.recv Target.main res])
  | .refreshing f rp =>
    match rp with
    | .sleepingR rf =>
      match refreshStart transport sh k rf with
      | (.inl rp', k', tr) => (.refreshing f rp', sh, k', tr)
      | (.inr _, k', tr) => refreshFailed retryOnAuth sh k' f tr
    | .waitRefresh rf res =>
      match evalResponse sh false rf.attempt res with
      | .inr body =>
        match body.accessTokenField with
        | some t =>
          let sh' := { sh with jwt := some t }
          let c := phaseFetch retryOnAuth requireAuth hasAuthHeader transport sh' k f
          (c.1, c.2.1, c.2.2.1, Ev.recv Target.refresh res :: Ev.setJwtEv t :: c.2.2.2)
        | none =>
          let c := phaseFetch retryOnAuth requireAuth hasAuthHeader transport sh k f
          (c.1, c.2.1, c.2.2.1, Ev.recv Target.refresh res :: c.2.2.2)
      | .inl (.retry e d) =>
        (.refreshing f (.sleepingR ⟨rf.attempt + 1, some e⟩), sh, k,
          [Ev.recv Target.refresh res, Ev.sleepMs Target.refresh d])
      | .inl (.thrown _) => refreshFailed retryOnAuth sh k f [Ev.recv Target.refresh res]

/-- A client with several in-flight `request` executions: the shared
state, each execution's suspension point, the global send counter and
the global trace. -/
structure Machine where
  shared : ClientState
  threads : List Phase
  k : Nat
  trace : List Ev

/-- Advance execution `i` by one step. -/
def stepThread (retryOnAuth requireAuth hasAuthHeader : Bool)
    (transport : Nat → FetchResult) (m : Machine) (i : Nat) : Machine :=
  match m.threads.get? i with
  | none => m
  | some p =>
    let c := stepPhase retryOnAuth requireAuth hasAuthHeader transport m.shared m.k p
    { shared := c.2.1, threads := m.threads.set i c.1, k := c.2.2.1
      trace := m.trace ++ c.2.2.2 }

/-- Run a schedule: at each step the named execution is the one the
event loop resumes (fetch completions and timer expiries may be
delivered in any order, since network latencies are arbitrary). -/
def runSched (retryOnAuth requireAuth hasAuthHeader : Bool)
    (transport : Nat → FetchResult) : List Nat → Machine → Machine
  | [], m => m
  | i :: s, m =>
    runSched retryOnAuth requireAuth hasAuthHeader transport s
      (stepThread retryOnAuth requireAuth hasAuthHeader transport m i)

/-- Whether an `Except` result is a success. -/
def exOk {α : Type} : Except SbError α → Bool
  | .ok _ => true
  | .error _ => false

/-!  Concrete scenarios used by counterexamples and witnesses. -/

/-- A client with the default configuration (`maxRetries = 3`,
`retryDelay = 1000`, `autoRefreshToken = true`) and a session token. -/
def tokState : ClientState :=
  { apiKey := none, jwt := some "tok0", maxRetries := 3, retryDelay := 1000
    autoRefreshToken := true }

/-- A client with the default configuration and no credential at all. -/
def noCredState : ClientState :=
  { apiKey := none, jwt := none, maxRetries := 3, retryDelay := 1000
    autoRefreshToken := true }

/-- A transport answering every send with the same outcome. -/
def constTransport (r : FetchResult) : Nat → FetchResult := fun _ => r

/-- A transport answering the first send (global index 0) with `r0` and
every later send with `r1`. -/
def firstThenTransport (r0 r1 : FetchResult) : Nat → FetchResult :=
  fun k => if k == 0 then r0 else r1

/-- A transport where every fetch fails at the network level. -/
def netFailTransport : Nat → FetchResult := fun _ => .netFail

/-- A transport answering every send with `500` and a parseable body. -/
def resp500Transport : Nat → FetchResult :=
  fun _ => .response 500 (.parsed (some "boom") .obj)

/-- A server that keeps answering the main request with 401 while every
refresh exchange succeeds with a fresh token: main-request sends sit at
even global indices, refresh sends at odd ones. -/
def alt401Transport : Nat → FetchResult := fun k =>
  if k % 2 == 0 then .response 401 (.parsed (some "unauthorized") .obj)
  else .response 200 (.parsed none (.auth (some "newtok")))

/-- A server whose first answer is 401 and which is unreachable
afterwards (each refresh attempt hits a network failure). -/
def c6NetTransport : Nat → FetchResult := fun k =>
  if k == 0 then .response 401 (.parsed (some "expired") .obj) else .netFail

/-- A server answering every send with HTTP 200 and a body that does
not parse as JSON. -/
def malformed200Transport : Nat → FetchResult :=
  fun _ => .response 200 (.malformed "not json")

/-- A server for `createEvent`: the POST succeeds with `eventId` `e1`,
the follow-up GET returns an empty event list. -/
def c10Transport : Nat → FetchResult := fun k =>
  if k == 0 then .response 201 (.parsed none (.createEventResp true (some "e1")))
  else .response 200 (.parsed none (.eventList []))

/-- Transport of the concurrency scenario: both clients' first
main-request sends (global indices 0 and 1) draw 401, their refresh
exchanges (indices 2 and 3) succeed with distinct tokens, and the
retried main requests succeed. -/
def raceTransport : Nat → FetchResult := fun k =>
  if k == 0 || k == 1 then .response 401 (.parsed (some "unauthorized") .obj)
  else if k == 2 then .response 200 (.parsed none (.auth (some "ta")))
  else if k == 3 then .response 200 (.parsed none (.auth (some "tb")))
  else .response 200 (.parsed none .obj)

/-- Two concurrent retryable requests on one client holding a session
token. -/
def raceStart : Machine :=
  { shared := tokState
    threads := [.start { attempt := 0, lastError := none }, .start { attempt := 0, lastError := none }]
    k := 0, trace := [] }

/-- The schedule of the race: request 0 sends, request 1 sends, request
0 receives its 401, sleeps, wakes and starts a refresh; request 1 then
receives its own 401 — while request 0's refresh is still in flight —
sleeps, wakes and starts a second refresh; both refreshes then resolve
and both retried requests succeed. -/
def raceSchedule : List Nat := [0, 1, 0, 0, 0, 1, 1, 1, 0, 1, 0, 1]

/-- The machine state after running the race schedule. -/
def raceRun : Machine := runSched true true true raceTransport raceSchedule raceStart

/-!  Lemmas.  Throughout, a "loop run" is `reqLoopCore` with the real
refresher `refreshTokenInternal`, as assembled by `request`. -/

theorem countSends_append (t : Target) (xs ys : List Ev) :
    countSends t (xs ++ ys) = countSends t xs + countSends t ys := by
  induction xs with
  | nil => simp [countSends]
  | cons x xs ih =>
    cases x <;> simp [countSends, ih] <;> omega

theorem countRefreshCalls_append (xs ys : List Ev) :
    countRefreshCalls (xs ++ ys) = countRefreshCalls xs + countRefreshCalls ys := by
  induction xs with
  | nil => simp [countRefreshCalls]
  | cons x xs ih =>
    cases x <;> simp [countRefreshCalls, ih] <;> omega

theorem countClears_append (xs ys : List Ev) :
    countClears (xs ++ ys) = countClears xs + countClears ys := by
  induction xs with
  | nil => simp [countClears]
  | cons x xs ih =>
    cases x <;> simp [countClears, ih] <;> omega

theorem evsOf_append (t : Target) (xs ys : List Ev) :
    evsOf t (xs ++ ys) = evsOf t xs ++ evsOf t ys := by
  induction xs with
  | nil => simp [evsOf]
  | cons x xs ih =>
    simp only [List.cons_append, evsOf]
    split <;> simp [ih]

theorem sleepsOf_append (t : Target) (xs ys : List Ev) :
    sleepsOf t (xs ++ ys) = sleepsOf t xs ++ sleepsOf t ys := by
  induction xs with
  | nil => simp [sleepsOf]
  | cons x xs ih =>
    cases x with
    | sleepMs t' d =>
      by_cases h : t' = t <;> simp [sleepsOf, h, ih]
    | send t' => simp [sleepsOf, ih]
    | recv t' r => simp [sleepsOf, ih]
    | refreshCall => simp [sleepsOf, ih]
    | setJwtEv tok => simp [sleepsOf, ih]
    | clearJwtEv => simp [sleepsOf, ih]

/-- Sends counted among the events of their own target. -/
theorem countSends_evsOf (t : Target) (xs : List Ev) :
    countSends t (evsOf t xs) = countSends t xs := by
  induction xs with
  | nil => simp [evsOf]
  | cons x xs ih =>
    cases x with
    | send t' =>
      by_cases h : t' = t
      · subst h; simp [evsOf, evTarget, countSends, ih]
      · have hb : (t' == t) = false := by simp [h]
        simp [evsOf, evTarget, countSends, hb, ih, h]
    | recv t' r => by_cases h : t' = t <;> simp [evsOf, evTarget, countSends, h, ih]
    | sleepMs t' d => by_cases h : t' = t <;> simp [evsOf, evTarget, countSends, h, ih]
    | refreshCall => simp [evsOf, evTarget, countSends, ih]
    | setJwtEv tok => simp [evsOf, evTarget, countSends, ih]
    | clearJwtEv => simp [evsOf, evTarget, countSends, ih]

/-- `handleSbe` either propagates the error or retries it with the
exponential-backoff delay, the latter only when the error is retryable,
retries remain and `retryOnAuth` holds. -/
theorem handleSbe_eq (st : ClientState) (roa : Bool) (a : Nat) (e : SbError) :
    handleSbe st roa a e = .thrown e ∨
      (handleSbe st roa a e = .retry e (st.retryDelay * 2 ^ a) ∧
        isRetryableError st e = true ∧ a < st.maxRetries ∧ roa = true) := by
  unfold handleSbe
  split
  · next h =>
    simp only [Bool.and_eq_true, decide_eq_true_eq] at h
    exact Or.inr ⟨rfl, h.1.1, h.1.2, h.2⟩
  · exact Or.inl rfl

/-- `handleNet` either propagates or retries the network error. -/
theorem handleNet_eq (st : ClientState) (a : Nat) :
    handleNet st a = .thrown netError ∨
      (handleNet st a = .retry netError (st.retryDelay * 2 ^ a) ∧ a < st.maxRetries) := by
  unfold handleNet
  split
  · next h => exact Or.inr ⟨rfl, by simpa using h⟩
  · exact Or.inl rfl

/-- A 401 error is not retried when no JWT is stored. -/
theorem handleSbe_thrown_of_401_nojwt (st : ClientState) (roa : Bool) (a : Nat)
    (e : SbError) (hs : e.statusCode = some 401) (hj : st.jwt.isSome = false) :
    handleSbe st roa a e = .thrown e := by
  unfold handleSbe
  have hr : isRetryableError st e = false := by
    simp [isRetryableError, hs, hj]
  simp [hr]

/-- A retryable status (0, 5xx, or 401-with-refresh) is never one the
spec classifies `ClientError`. -/
theorem offending_false_of_retryable (st : ClientState) (s : Nat) (m : Option String)
    (p : Payload) (b : Option JsonBody)
    (h : isRetryableError st { message := errMessage m s, statusCode := some s, responseBody := b } = true) :
    offendingOutcome (.response s (.parsed m p)) = false := by
  simp only [isRetryableError, Bool.or_eq_true, Bool.and_eq_true, beq_iff_eq,
    decide_eq_true_eq] at h
  simp only [offendingOutcome]
  rcases h with ((h | h) | ⟨⟨h, _⟩, _⟩)
  · subst h; simp
  · have : ¬ (s ≤ 499) := by omega
    simp [this]
  · subst h; simp

/-- Emptiness helpers: a trace none of whose events belongs to `t`
contributes nothing to the `t`-observers. -/
theorem evsOf_eq_nil_of (t : Target) (xs : List Ev)
    (h : ∀ ev ∈ xs, evTarget ev ≠ some t) : evsOf t xs = [] := by
  induction xs with
  | nil => rfl
  | cons x xs ih =>
    have hx : (evTarget x == some t) = false := by
      simpa using h x (by simp)
    simp only [evsOf, hx, Bool.false_eq_true, if_false]
    exact ih (fun ev hev => h ev (by simp [hev]))

theorem countSends_eq_zero_of (t : Target) (xs : List Ev)
    (h : ∀ ev ∈ xs, evTarget ev ≠ some t) : countSends t xs = 0 := by
  rw [← countSends_evsOf, evsOf_eq_nil_of t xs h]
  rfl

theorem sleepsOf_eq_nil_of (t : Target) (xs : List Ev)
    (h : ∀ ev ∈ xs, evTarget ev ≠ some t) : sleepsOf t xs = [] := by
  induction xs with
  | nil => rfl
  | cons x xs ih =>
    have ih' := ih (fun ev hev => h ev (by simp [hev]))
    cases x with
    | sleepMs t' d =>
      have hx : evTarget (.sleepMs t' d) ≠ some t := h _ (by simp)
      have ht' : (t' == t) = false := by
        simp only [evTarget] at hx
        simpa using hx
      simp [sleepsOf, ht', ih']
    | send t' => simpa [sleepsOf] using ih'
    | recv t' r => simpa [sleepsOf] using ih'
    | refreshCall => simpa [sleepsOf] using ih'
    | setJwtEv tok => simpa [sleepsOf] using ih'
    | clearJwtEv => simpa [sleepsOf] using ih'

theorem countRefreshCalls_eq_zero_of (xs : List Ev)
    (h : ∀ ev ∈ xs, ev ≠ Ev.refreshCall) : countRefreshCalls xs = 0 := by
  induction xs with
  | nil => rfl
  | cons x xs ih =>
    have ih' := ih (fun ev hev => h ev (by simp [hev]))
    cases x with
    | refreshCall => exact absurd rfl (h _ (by simp))
    | send t' => simpa [countRefreshCalls] using ih'
    | recv t' r => simpa [countRefreshCalls] using ih'
    | sleepMs t' d => simpa [countRefreshCalls] using ih'
    | setJwtEv tok => simpa [countRefreshCalls] using ih'
    | clearJwtEv => simpa [countRefreshCalls] using ih'

/-- Unfolding equations for the loop. -/
theorem reqLoopCore_zero (T : Nat → FetchResult) (R : ClientState → Nat → RefreshOut)
    (roa ra hah : Bool) (tgt : Target) (a : Nat) (st : ClientState) (k : Nat)
    (le : Option SbError) :
    reqLoopCore T R roa ra hah tgt 0 a st k le =
      { result := .error (le.getD exhaustedError), st := st, k := k, trace := [] } := rfl

theorem reqLoopCore_succ_success (T : Nat → FetchResult) (R : ClientState → Nat → RefreshOut)
    (roa ra hah : Bool) (tgt : Target) (fuel a : Nat) (st : ClientState) (k : Nat)
    (le : Option SbError) (b : JsonBody) (st' : ClientState) (k' : Nat) (tr : List Ev)
    (h : iterBody T R roa ra hah tgt a st k le = (.success b, st', k', tr)) :
    reqLoopCore T R roa ra hah tgt (fuel + 1) a st k le =
      { result := .ok b, st := st', k := k', trace := tr } := by
  simp only [reqLoopCore, h]

theorem reqLoopCore_succ_failed (T : Nat → FetchResult) (R : ClientState → Nat → RefreshOut)
    (roa ra hah : Bool) (tgt : Target) (fuel a : Nat) (st : ClientState) (k : Nat)
    (le : Option SbError) (e : SbError) (st' : ClientState) (k' : Nat) (tr : List Ev)
    (h : iterBody T R roa ra hah tgt a st k le = (.failed e, st', k', tr)) :
    reqLoopCore T R roa ra hah tgt (fuel + 1) a st k le =
      { result := .error e, st := st', k := k', trace := tr } := by
  simp only [reqLoopCore, h]

theorem reqLoopCore_succ_again (T : Nat → FetchResult) (R : ClientState → Nat → RefreshOut)
    (roa ra hah : Bool) (tgt : Target) (fuel a : Nat) (st : ClientState) (k : Nat)
    (le : Option SbError) (e : SbError) (d : Nat) (st' : ClientState) (k' : Nat) (tr : List Ev)
    (h : iterBody T R roa ra hah tgt a st k le = (.again e d, st', k', tr)) :
    reqLoopCore T R roa ra hah tgt (fuel + 1) a st k le =
      { result := (reqLoopCore T R roa ra hah tgt fuel (a + 1) st' k' (some e)).result
        st := (reqLoopCore T R roa ra hah tgt fuel (a + 1) st' k' (some e)).st
        k := (reqLoopCore T R roa ra hah tgt fuel (a + 1) st' k' (some e)).k
        trace := tr ++ Ev.sleepMs tgt d ::
          (reqLoopCore T R roa ra hah tgt fuel (a + 1) st' k' (some e)).trace } := by
  simp only [reqLoopCore, h]

/-- What one header-and-fetch phase can do: fail before any send (the
missing-credential throw), or make exactly one send and then succeed,
fail, or schedule a retry with the exponential-backoff delay.  A retry
is never scheduled on a `ClientError`/`ParseError` outcome, and the
client state is untouched. -/
theorem iterFetch_char (T : Nat → FetchResult) (roa ra hah : Bool) (tgt : Target)
    (a : Nat) (st : ClientState) (k : Nat) (io : IterOut) (st' : ClientState)
    (k' : Nat) (tr : List Ev)
    (h : iterFetch T roa ra hah tgt a st k = (io, st', k', tr)) :
    st' = st ∧
    ((tr = [] ∧ ∃ e, io = .failed e) ∨
     (∃ r, tr = [Ev.send tgt, Ev.recv tgt r] ∧
       ((∃ b, io = .success b) ∨ (∃ e, io = .failed e) ∨
        (∃ e, io = .again e (st.retryDelay * 2 ^ a) ∧ offendingOutcome r = false)))) := by
  by_cases hc : (ra && !hah && !st.apiKey.isSome && !st.jwt.isSome) = true
  · have hj : st.jwt.isSome = false := by
      simp only [Bool.and_eq_true, Bool.not_eq_true'] at hc
      exact hc.2
    rw [iterFetch, if_pos hc,
      handleSbe_thrown_of_401_nojwt st roa a noAuthError rfl hj] at h
    simp only [Prod.mk.injEq] at h
    obtain ⟨hio, hst, _, htr⟩ := h
    exact ⟨hst.symm, Or.inl ⟨htr.symm, noAuthError, hio.symm⟩⟩
  · rw [iterFetch, if_neg hc] at h
    rcases hT : T k with _ | msg | ⟨s, b⟩ <;> rw [hT] at h
    · -- network failure
      simp only [evalResponse] at h
      rcases handleNet_eq st a with hn | ⟨hn, _⟩ <;>
        rw [hn] at h <;> simp only [Prod.mk.injEq] at h <;>
        obtain ⟨hio, hst, _, htr⟩ := h
      · exact ⟨hst.symm, Or.inr ⟨.netFail, htr.symm, Or.inr (Or.inl ⟨netError, hio.symm⟩)⟩⟩
      · exact ⟨hst.symm, Or.inr ⟨.netFail, htr.symm,
          Or.inr (Or.inr ⟨netError, hio.symm, rfl⟩)⟩⟩
    · -- other exception
      simp only [evalResponse, Prod.mk.injEq] at h
      obtain ⟨hio, hst, _, htr⟩ := h
      exact ⟨hst.symm, Or.inr ⟨.otherFail msg, htr.symm, Or.inr (Or.inl ⟨_, hio.symm⟩)⟩⟩
    · cases b with
      | malformed raw =>
        simp only [evalResponse, Prod.mk.injEq] at h
        obtain ⟨hio, hst, _, htr⟩ := h
        exact ⟨hst.symm, Or.inr ⟨.response s (.malformed raw), htr.symm,
          Or.inr (Or.inl ⟨_, hio.symm⟩)⟩⟩
      | parsed m p =>
        simp only [evalResponse] at h
        by_cases hok : respOk s = true
        · rw [if_pos hok] at h
          simp only [Prod.mk.injEq] at h
          obtain ⟨hio, hst, _, htr⟩ := h
          exact ⟨hst.symm, Or.inr ⟨.response s (.parsed m p), htr.symm,
            Or.inl ⟨_, hio.symm⟩⟩⟩
        · rw [if_neg hok] at h
          rcases handleSbe_eq st roa a
              { message := errMessage m s, statusCode := some s
                responseBody := some (.parsed m p) } with hs | ⟨hs, hret, _, _⟩ <;>
            rw [hs] at h <;> simp only [Prod.mk.injEq] at h <;>
            obtain ⟨hio, hst, _, htr⟩ := h
          · exact ⟨hst.symm, Or.inr ⟨.response s (.parsed m p), htr.symm,
              Or.inr (Or.inl ⟨_, hio.symm⟩)⟩⟩
          · exact ⟨hst.symm, Or.inr ⟨.response s (.parsed m p), htr.symm,
              Or.inr (Or.inr ⟨_, hio.symm,
                offending_false_of_retryable st s m p _ hret⟩)⟩⟩

/-- With `retryOnAuth = false` (register, login, refresh), the refresh
prologue is dead code: one iteration is just the header-and-fetch
phase, whatever refresher is supplied. -/
theorem iterBody_false (T : Nat → FetchResult) (R : ClientState → Nat → RefreshOut)
    (ra hah : Bool) (tgt : Target) (a : Nat) (st : ClientState) (k : Nat)
    (le : Option SbError) :
    iterBody T R false ra hah tgt a st k le = iterFetch T false ra hah tgt a st k := by
  cases le with
  | none => rfl
  | some le => simp [iterBody]

/-- The loop of a `retryOnAuth = false` request never touches the
client state. -/
theorem innerLoop_st (T : Nat → FetchResult) (ra hah : Bool) (tgt : Target) :
    ∀ (fuel a : Nat) (st : ClientState) (k : Nat) (le : Option SbError),
      (reqLoopCore T dummyRefresh false ra hah tgt fuel a st k le).st = st := by
  intro fuel
  induction fuel with
  | zero => intro a st k le; rfl
  | succ fuel ih =>
    intro a st k le
    rcases hF : iterFetch T false ra hah tgt a st k with ⟨io, st', k', tr⟩
    have hIB : iterBody T dummyRefresh false ra hah tgt a st k le = (io, st', k', tr) :=
      (iterBody_false T dummyRefresh ra hah tgt a st k le).trans hF
    have hst : st' = st := (iterFetch_char T false ra hah tgt a st k io st' k' tr hF).1
    cases io with
    | success b => rw [reqLoopCore_succ_success T dummyRefresh false ra hah tgt fuel a st k le b st' k' tr hIB]; exact hst
    | failed e => rw [reqLoopCore_succ_failed T dummyRefresh false ra hah tgt fuel a st k le e st' k' tr hIB]; exact hst
    | again e d =>
      rw [reqLoopCore_succ_again T dummyRefresh false ra hah tgt fuel a st k le e d st' k' tr hIB]
      exact (ih (a + 1) st' k' (some e)).trans hst

/-- The loop of a `retryOnAuth = false` request only produces events of
its own target. -/
theorem innerLoop_trace (T : Nat → FetchResult) (ra hah : Bool) (tgt : Target) :
    ∀ (fuel a : Nat) (st : ClientState) (k : Nat) (le : Option SbError),
      ∀ ev ∈ (reqLoopCore T dummyRefresh false ra hah tgt fuel a st k le).trace,
        evTarget ev = some tgt := by
  intro fuel
  induction fuel with
  | zero => intro a st k le ev hev; simp [reqLoopCore_zero] at hev
  | succ fuel ih =>
    intro a st k le ev hev
    rcases hF : iterFetch T false ra hah tgt a st k with ⟨io, st', k', tr⟩
    have hIB : iterBody T dummyRefresh false ra hah tgt a st k le = (io, st', k', tr) :=
      (iterBody_false T dummyRefresh ra hah tgt a st k le).trans hF
    have htr : tr = [] ∨ ∃ r, tr = [Ev.send tgt, Ev.recv tgt r] := by
      rcases (iterFetch_char T false ra hah tgt a st k io st' k' tr hF).2 with ⟨h1, _⟩ | ⟨r, h1, _⟩
      · exact Or.inl h1
      · exact Or.inr ⟨r, h1⟩
    have hmem_tr : ∀ ev ∈ tr, evTarget ev = some tgt := by
      intro ev hev
      rcases htr with h1 | ⟨r, h1⟩ <;> subst h1 <;> simp at hev
      rcases hev with h | h <;> subst h <;> rfl
    cases io with
    | success b =>
      rw [reqLoopCore_succ_success T dummyRefresh false ra hah tgt fuel a st k le b st' k' tr hIB] at hev
      exact hmem_tr ev hev
    | failed e =>
      rw [reqLoopCore_succ_failed T dummyRefresh false ra hah tgt fuel a st k le e st' k' tr hIB] at hev
      exact hmem_tr ev hev
    | again e d =>
      rw [reqLoopCore_succ_again T dummyRefresh false ra hah tgt fuel a st k le e d st' k' tr hIB] at hev
      simp only [List.mem_append, List.mem_cons] at hev
      rcases hev with h | h | h
      · exact hmem_tr ev h
      · subst h; rfl
      · exact ih (a + 1) st' k' (some e) ev h

/-- Computation rule for `refreshTokenInternal` with no stored JWT. -/
theorem refreshTokenInternal_eq_none (T : Nat → FetchResult) (st : ClientState)
    (k : Nat) (hj : st.jwt = none) :
    refreshTokenInternal T st k =
      { result := .error { message := "No JWT token to refresh", statusCode := none, responseBody := none }
        st := st, k := k, trace := [] } := by
  unfold refreshTokenInternal
  rw [hj]

/-- Computation rule for `refreshTokenInternal` with a stored JWT whose
nested request succeeded and returned a new access token. -/
theorem refreshTokenInternal_eq_ok_some (T : Nat → FetchResult) (st : ClientState)
    (k : Nat) (j : String) (b : JsonBody) (st0 : ClientState) (k0 : Nat)
    (tr0 : List Ev) (t : String) (hj : st.jwt = some j)
    (hO : reqLoopCore T dummyRefresh false true false Target.refresh
      (st.maxRetries + 1) 0 st k none = { result := .ok b, st := st0, k := k0, trace := tr0 })
    (ht : b.accessTokenField = some t) :
    refreshTokenInternal T st k =
      { result := .ok (), st := { st0 with jwt := some t }, k := k0
        trace := tr0 ++ [Ev.setJwtEv t] } := by
  unfold refreshTokenInternal
  rw [hj, hO]
  dsimp only
  rw [ht]

/-- Computation rule: nested request succeeded but the parsed body has
no `accessToken`, so `setJwt` is skipped. -/
theorem refreshTokenInternal_eq_ok_none (T : Nat → FetchResult) (st : ClientState)
    (k : Nat) (j : String) (b : JsonBody) (st0 : ClientState) (k0 : Nat)
    (tr0 : List Ev) (hj : st.jwt = some j)
    (hO : reqLoopCore T dummyRefresh false true false Target.refresh
      (st.maxRetries + 1) 0 st k none = { result := .ok b, st := st0, k := k0, trace := tr0 })
    (ht : b.accessTokenField = none) :
    refreshTokenInternal T st k =
      { result := .ok (), st := st0, k := k0, trace := tr0 } := by
  unfold refreshTokenInternal
  rw [hj, hO]
  dsimp only
  rw [ht]

/-- Computation rule: the nested request threw, so the JWT is cleared
and the error rethrown. -/
theorem refreshTokenInternal_eq_error (T : Nat → FetchResult) (st : ClientState)
    (k : Nat) (j : String) (e : SbError) (st0 : ClientState) (k0 : Nat)
    (tr0 : List Ev) (hj : st.jwt = some j)
    (hO : reqLoopCore T dummyRefresh false true false Target.refresh
      (st.maxRetries + 1) 0 st k none = { result := .error e, st := st0, k := k0, trace := tr0 }) :
    refreshTokenInternal T st k =
      { result := .error e, st := { st0 with jwt := none }, k := k0
        trace := tr0 ++ [Ev.clearJwtEv] } := by
  unfold refreshTokenInternal
  rw [hj, hO]

/-- Every event of a `refreshTokenInternal` run belongs to the refresh
request or is a session-token mutation. -/
theorem refreshTokenInternal_members (T : Nat → FetchResult) (st : ClientState) (k : Nat) :
    ∀ ev ∈ (refreshTokenInternal T st k).trace,
      evTarget ev = some Target.refresh ∨ (∃ t, ev = Ev.setJwtEv t) ∨ ev = Ev.clearJwtEv := by
  intro ev hev
  rcases hO : reqLoopCore T dummyRefresh false true false Target.refresh
      (st.maxRetries + 1) 0 st k none with ⟨res, st0, k0, tr0⟩
  have hinner : ∀ ev ∈ tr0, evTarget ev = some Target.refresh := by
    have h := innerLoop_trace T true false Target.refresh (st.maxRetries + 1) 0 st k none
    rw [hO] at h
    exact h
  rcases hj : st.jwt with _ | j
  · rw [refreshTokenInternal_eq_none T st k hj] at hev
    simp at hev
  · cases res with
    | ok b =>
      rcases ht : b.accessTokenField with _ | t
      · rw [refreshTokenInternal_eq_ok_none T st k j b st0 k0 tr0 hj hO ht] at hev
        exact Or.inl (hinner ev hev)
      · rw [refreshTokenInternal_eq_ok_some T st k j b st0 k0 tr0 t hj hO ht] at hev
        simp only [List.mem_append, List.mem_singleton] at hev
        rcases hev with h | h
        · exact Or.inl (hinner ev h)
        · exact Or.inr (Or.inl ⟨t, h⟩)
    | error e =>
      rw [refreshTokenInternal_eq_error T st k j e st0 k0 tr0 hj hO] at hev
      simp only [List.mem_append, List.mem_singleton] at hev
      rcases hev with h | h
      · exact Or.inl (hinner ev h)
      · exact Or.inr (Or.inr h)

/-- `refreshTokenInternal` contributes no events of any non-refresh
target. -/
theorem refreshTokenInternal_evsOf_nil (T : Nat → FetchResult) (st : ClientState)
    (k : Nat) (tgt : Target) (htgt : tgt ≠ Target.refresh) :
    evsOf tgt (refreshTokenInternal T st k).trace = [] := by
  apply evsOf_eq_nil_of
  intro ev hev
  rcases refreshTokenInternal_members T st k ev hev with h | ⟨t, h⟩ | h
  · rw [h]
    simp only [ne_eq, Option.some.injEq]
    intro hc
    exact htgt hc.symm
  · subst h; simp [evTarget]
  · subst h; simp [evTarget]

/-- `refreshTokenInternal` never (re-)enters the refresh prologue. -/
theorem refreshTokenInternal_noRefreshCall (T : Nat → FetchResult) (st : ClientState)
    (k : Nat) : countRefreshCalls (refreshTokenInternal T st k).trace = 0 := by
  apply countRefreshCalls_eq_zero_of
  intro ev hev
  rcases refreshTokenInternal_members T st k ev hev with h | ⟨t, h⟩ | h
  · intro hc; rw [hc] at h; simp [evTarget] at h
  · subst h; simp
  · subst h; simp

/-- `refreshTokenInternal` only writes the `jwt` field. -/
theorem refreshTokenInternal_st (T : Nat → FetchResult) (st : ClientState) (k : Nat) :
    ∃ j, (refreshTokenInternal T st k).st = { st with jwt := j } := by
  rcases hO : reqLoopCore T dummyRefresh false true false Target.refresh
      (st.maxRetries + 1) 0 st k none with ⟨res, st0, k0, tr0⟩
  have hst : st0 = st := by
    have h := innerLoop_st T true false Target.refresh (st.maxRetries + 1) 0 st k none
    rw [hO] at h
    exact h
  rw [hst] at hO
  rcases hj : st.jwt with _ | j
  · rw [refreshTokenInternal_eq_none T st k hj]
    exact ⟨none, by cases st with | mk ak jw mr rd ar => simp at hj; simp [hj]⟩
  · cases res with
    | ok b =>
      rcases ht : b.accessTokenField with _ | t
      · rw [refreshTokenInternal_eq_ok_none T st k j b st k0 tr0 hj hO ht]
        exact ⟨st.jwt, by cases st; rfl⟩
      · rw [refreshTokenInternal_eq_ok_some T st k j b st k0 tr0 t hj hO ht]
        exact ⟨some t, rfl⟩
    | error e =>
      rw [refreshTokenInternal_eq_error T st k j e st k0 tr0 hj hO]
      exact ⟨none, rfl⟩

/-- A failed `refreshTokenInternal` leaves no session token behind. -/
theorem refreshTokenInternal_err (T : Nat → FetchResult) (st : ClientState) (k : Nat)
    (h : exOk (refreshTokenInternal T st k).result = false) :
    (refreshTokenInternal T st k).st.jwt = none := by
  rcases hO : reqLoopCore T dummyRefresh false true false Target.refresh
      (st.maxRetries + 1) 0 st k none with ⟨res, st0, k0, tr0⟩
  rcases hj : st.jwt with _ | j
  · rw [refreshTokenInternal_eq_none T st k hj]
    exact hj
  · cases res with
    | ok b =>
      rcases ht : b.accessTokenField with _ | t
      · rw [refreshTokenInternal_eq_ok_none T st k j b st0 k0 tr0 hj hO ht] at h
        simp [exOk] at h
      · rw [refreshTokenInternal_eq_ok_some T st k j b st0 k0 tr0 t hj hO ht] at h
        simp [exOk] at h
    | error e =>
      rw [refreshTokenInternal_eq_error T st k j e st0 k0 tr0 hj hO]

/-- A successful `refreshTokenInternal` keeps a session token present
when one was present. -/
theorem refreshTokenInternal_ok_jwt (T : Nat → FetchResult) (st : ClientState) (k : Nat)
    (hok : exOk (refreshTokenInternal T st k).result = true)
    (hj : st.jwt.isSome = true) :
    (refreshTokenInternal T st k).st.jwt.isSome = true := by
  rcases hO : reqLoopCore T dummyRefresh false true false Target.refresh
      (st.maxRetries + 1) 0 st k none with ⟨res, st0, k0, tr0⟩
  have hst : st0 = st := by
    have h := innerLoop_st T true false Target.refresh (st.maxRetries + 1) 0 st k none
    rw [hO] at h
    exact h
  rw [hst] at hO
  rcases hjj : st.jwt with _ | j
  · rw [hjj] at hj; simp at hj
  · cases res with
    | ok b =>
      rcases ht : b.accessTokenField with _ | t
      · rw [refreshTokenInternal_eq_ok_none T st k j b st k0 tr0 hjj hO ht]
        simpa using hj
      · rw [refreshTokenInternal_eq_ok_some T st k j b st k0 tr0 t hjj hO ht]
        rfl
    | error e =>
      rw [refreshTokenInternal_eq_error T st k j e st k0 tr0 hjj hO] at hok
      simp [exOk] at hok

/-- State effect of one full iteration of the loop (with the real
refresher): only the `jwt` field can change, and when a session token
was present at the start it is still present unless the iteration threw. -/
theorem iterBody_state (T : Nat → FetchResult) (roa ra hah : Bool) (tgt : Target)
    (a : Nat) (st : ClientState) (k : Nat) (le : Option SbError)
    (io : IterOut) (st' : ClientState) (k' : Nat) (tr : List Ev)
    (h : iterBody T (refreshTokenInternal T) roa ra hah tgt a st k le = (io, st', k', tr)) :
    (∃ j, st' = { st with jwt := j }) ∧
    (st.jwt.isSome = true → (∃ e, io = .failed e) ∨ st'.jwt.isSome = true) := by
  have fromFetch : ∀ (stf : ClientState) (kf : Nat) (ftr : List Ev),
      (∃ j, stf = { st with jwt := j }) →
      (st.jwt.isSome = true → stf.jwt.isSome = true) →
      iterFetch T roa ra hah tgt a stf kf = (io, st', k', ftr) →
      (∃ j, st' = { st with jwt := j }) ∧
      (st.jwt.isSome = true → (∃ e, io = .failed e) ∨ st'.jwt.isSome = true) := by
    intro stf kf ftr hstf hjf hF
    have hst := (iterFetch_char T roa ra hah tgt a stf kf io st' k' _ hF).1
    refine ⟨by rw [hst]; exact hstf, fun hj => Or.inr ?_⟩
    rw [hst]
    exact hjf hj
  cases le with
  | none =>
    simp only [iterBody] at h
    exact fromFetch st k tr ⟨st.jwt, by cases st; rfl⟩ (fun hj => hj) h
  | some le =>
    simp only [iterBody] at h
    by_cases hg : (decide (0 < a) && (le.statusCode == some 401) && st.jwt.isSome
        && st.autoRefreshToken && roa) = true
    · rw [if_pos hg] at h
      have hs401 : le.statusCode = some 401 := by
        simp only [Bool.and_eq_true, beq_iff_eq] at hg
        exact hg.1.1.1.2
      rcases hR : refreshTokenInternal T st k with ⟨rres, rst, rk, rtr⟩
      have hRst : ∃ j, rst = { st with jwt := j } := by
        have hx := refreshTokenInternal_st T st k
        rw [hR] at hx
        exact hx
      rw [hR] at h
      dsimp only at h
      cases rres with
      | ok u =>
        have hjf : st.jwt.isSome = true → rst.jwt.isSome = true := by
          intro hj
          have hok : exOk (refreshTokenInternal T st k).result = true := by rw [hR]; rfl
          have hx := refreshTokenInternal_ok_jwt T st k hok hj
          rw [hR] at hx
          exact hx
        rcases hF : iterFetch T roa ra hah tgt a rst rk with ⟨fio, fst, fk, ftr⟩
        rw [hF] at h
        dsimp only at h
        simp only [Prod.mk.injEq] at h
        obtain ⟨hio, hst, hk, htr⟩ := h
        exact fromFetch rst rk ftr hRst hjf (by rw [hF, hio, hst, hk])
      | error e0 =>
        have hjn : rst.jwt = none := by
          have hx := refreshTokenInternal_err T st k (by rw [hR]; rfl)
          rw [hR] at hx
          exact hx
        rcases handleSbe_eq rst roa a le with hs | ⟨hs, hret, _, _⟩ <;> rw [hs] at h <;>
          simp only [Prod.mk.injEq] at h
        · obtain ⟨hio, hst, _, _⟩ := h
          exact ⟨by rw [← hst]; exact hRst, fun _ => Or.inl ⟨le, hio.symm⟩⟩
        · exfalso
          simp [isRetryableError, hs401, hjn] at hret
    · rw [if_neg hg] at h
      exact fromFetch st k tr ⟨st.jwt, by cases st; rfl⟩ (fun hj => hj) h

/-- Trace effect of one full iteration (real refresher, non-refresh
target): either no events of the target at all and the iteration threw,
or exactly one send-and-receive of the target after a target-free
prelude; a retry is scheduled only with the backoff delay of this
attempt, and never on a `ClientError`/`ParseError` outcome. -/
theorem iterBody_trace (T : Nat → FetchResult) (roa ra hah : Bool) (tgt : Target)
    (htgt : tgt ≠ Target.refresh) (a : Nat) (st : ClientState) (k : Nat)
    (le : Option SbError) (io : IterOut) (st' : ClientState) (k' : Nat) (tr : List Ev)
    (h : iterBody T (refreshTokenInternal T) roa ra hah tgt a st k le = (io, st', k', tr)) :
    (evsOf tgt tr = [] ∧ ∃ e, io = .failed e) ∨
    (∃ pre r, tr = pre ++ [Ev.send tgt, Ev.recv tgt r] ∧ evsOf tgt pre = [] ∧
      ((∃ b, io = .success b) ∨ (∃ e, io = .failed e) ∨
       (∃ e, io = .again e (st.retryDelay * 2 ^ a) ∧ offendingOutcome r = false))) := by
  have fromFetch : ∀ (stf : ClientState) (kf : Nat) (pre ftr : List Ev),
      evsOf tgt pre = [] → stf.retryDelay = st.retryDelay →
      iterFetch T roa ra hah tgt a stf kf = (io, st', k', ftr) →
      tr = pre ++ ftr →
      (evsOf tgt tr = [] ∧ ∃ e, io = .failed e) ∨
      (∃ pre r, tr = pre ++ [Ev.send tgt, Ev.recv tgt r] ∧ evsOf tgt pre = [] ∧
        ((∃ b, io = .success b) ∨ (∃ e, io = .failed e) ∨
         (∃ e, io = .again e (st.retryDelay * 2 ^ a) ∧ offendingOutcome r = false))) := by
    intro stf kf pre ftr hpre hrd hF htr
    rcases (iterFetch_char T roa ra hah tgt a stf kf io st' k' _ hF).2 with
      ⟨h1, e, hio⟩ | ⟨r, h1, hcase⟩
    · left
      refine ⟨?_, e, hio⟩
      rw [htr, h1, List.append_nil]
      exact hpre
    · right
      refine ⟨pre, r, by rw [htr, h1], hpre, ?_⟩
      rcases hcase with hs | hs | ⟨e, hio, hoff⟩
      · exact Or.inl hs
      · exact Or.inr (Or.inl hs)
      · exact Or.inr (Or.inr ⟨e, by rw [hio, hrd], hoff⟩)
  cases le with
  | none =>
    simp only [iterBody] at h
    exact fromFetch st k [] tr rfl rfl h (by simp)
  | some le =>
    simp only [iterBody] at h
    by_cases hg : (decide (0 < a) && (le.statusCode == some 401) && st.jwt.isSome
        && st.autoRefreshToken && roa) = true
    · rw [if_pos hg] at h
      have hs401 : le.statusCode = some 401 := by
        simp only [Bool.and_eq_true, beq_iff_eq] at hg
        exact hg.1.1.1.2
      rcases hR : refreshTokenInternal T st k with ⟨rres, rst, rk, rtr⟩
      have hpre : evsOf tgt (Ev.refreshCall :: rtr) = [] := by
        have hx := refreshTokenInternal_evsOf_nil T st k tgt htgt
        rw [hR] at hx
        simp [evsOf, evTarget, hx]
      have hRst : ∃ j, rst = { st with jwt := j } := by
        have hx := refreshTokenInternal_st T st k
        rw [hR] at hx
        exact hx
      rw [hR] at h
      dsimp only at h
      cases rres with
      | ok u =>
        rcases hF : iterFetch T roa ra hah tgt a rst rk with ⟨fio, fst, fk, ftr⟩
        rw [hF] at h
        dsimp only at h
        simp only [Prod.mk.injEq] at h
        obtain ⟨hio, hst, hk, htr⟩ := h
        have hrd : rst.retryDelay = st.retryDelay := by
          obtain ⟨j, hj⟩ := hRst
          rw [hj]
        exact fromFetch rst rk (Ev.refreshCall :: rtr) ftr hpre hrd
          (by rw [hF, hio, hst, hk]) htr.symm
      | error e0 =>
        have hjn : rst.jwt = none := by
          have hx := refreshTokenInternal_err T st k (by rw [hR]; rfl)
          rw [hR] at hx
          exact hx
        rcases handleSbe_eq rst roa a le with hs | ⟨hs, hret, _, _⟩ <;> rw [hs] at h <;>
          simp only [Prod.mk.injEq] at h
        · obtain ⟨hio, _, _, htr⟩ := h
          exact Or.inl ⟨by rw [← htr]; exact hpre, le, hio.symm⟩
        · exfalso
          simp [isRetryableError, hs401, hjn] at hret
    · rw [if_neg hg] at h
      exact fromFetch st k [] tr rfl rfl h (by simp)

/-- An event of target `t` inside `xs` shows up in `evsOf t xs`. -/
theorem mem_evsOf (t : Target) (xs : List Ev) (ev : Ev) (hev : ev ∈ xs)
    (ht : evTarget ev = some t) : ev ∈ evsOf t xs := by
  induction xs with
  | nil => simp at hev
  | cons x xs ih =>
    rcases List.mem_cons.mp hev with h | h
    · subst h
      simp [evsOf, ht]
    · by_cases hx : (evTarget x == some t) = true <;> simp [evsOf, hx, ih h]

/-- If `evsOf t xs` is empty, no event of `xs` belongs to `t`. -/
theorem evsOf_nil_no_mem (t : Target) (xs : List Ev) (h : evsOf t xs = []) :
    ∀ ev ∈ xs, evTarget ev ≠ some t := by
  intro ev hev ht
  have := mem_evsOf t xs ev hev ht
  rw [h] at this
  simp at this

theorem countSends_of_evsOf_nil (t : Target) (xs : List Ev) (h : evsOf t xs = []) :
    countSends t xs = 0 := by
  rw [← countSends_evsOf, h]
  rfl

theorem sleepsOf_of_evsOf_nil (t : Target) (xs : List Ev) (h : evsOf t xs = []) :
    sleepsOf t xs = [] :=
  sleepsOf_eq_nil_of t xs (evsOf_nil_no_mem t xs h)

/-- C1 engine: a loop run with `fuel` iterations makes at most `fuel`
physical sends of its own (non-refresh) target. -/
theorem loop_sends_bound (T : Nat → FetchResult) (roa ra hah : Bool) (tgt : Target)
    (htgt : tgt ≠ Target.refresh) :
    ∀ (fuel a : Nat) (st : ClientState) (k : Nat) (le : Option SbError),
      countSends tgt (reqLoopCore T (refreshTokenInternal T) roa ra hah tgt fuel a st k le).trace ≤ fuel := by
  intro fuel
  induction fuel with
  | zero => intro a st k le; rw [reqLoopCore_zero]; exact Nat.le_refl 0
  | succ fuel ih =>
    intro a st k le
    rcases hIB : iterBody T (refreshTokenInternal T) roa ra hah tgt a st k le with
      ⟨io, st', k', tr⟩
    have htr : countSends tgt tr ≤ 1 := by
      rcases iterBody_trace T roa ra hah tgt htgt a st k le io st' k' tr hIB with
        ⟨h1, _⟩ | ⟨pre, r, h1, hpre, _⟩
      · rw [countSends_of_evsOf_nil tgt tr h1]
        exact Nat.zero_le 1
      · rw [h1, countSends_append, countSends_of_evsOf_nil tgt pre hpre]
        simp [countSends]
    cases io with
    | success b =>
      rw [reqLoopCore_succ_success T (refreshTokenInternal T) roa ra hah tgt fuel a st k le b st' k' tr hIB]
      exact le_trans htr (by omega)
    | failed e =>
      rw [reqLoopCore_succ_failed T (refreshTokenInternal T) roa ra hah tgt fuel a st k le e st' k' tr hIB]
      exact le_trans htr (by omega)
    | again e d =>
      rw [reqLoopCore_succ_again T (refreshTokenInternal T) roa ra hah tgt fuel a st k le e d st' k' tr hIB]
      have h2 := ih (a + 1) st' k' (some e)
      simp only [countSends_append]
      have hs : countSends tgt (Ev.sleepMs tgt d ::
          (reqLoopCore T (refreshTokenInternal T) roa ra hah tgt fuel (a + 1) st' k' (some e)).trace) =
          countSends tgt (reqLoopCore T (refreshTokenInternal T) roa ra hah tgt fuel (a + 1) st' k' (some e)).trace := by
        simp [countSends]
      rw [hs]
      omega

/-- The loop preserves the API key. -/
theorem loop_apiKey (T : Nat → FetchResult) (roa ra hah : Bool) (tgt : Target) :
    ∀ (fuel a : Nat) (st : ClientState) (k : Nat) (le : Option SbError),
      (reqLoopCore T (refreshTokenInternal T) roa ra hah tgt fuel a st k le).st.apiKey = st.apiKey := by
  intro fuel
  induction fuel with
  | zero => intro a st k le; rw [reqLoopCore_zero]
  | succ fuel ih =>
    intro a st k le
    rcases hIB : iterBody T (refreshTokenInternal T) roa ra hah tgt a st k le with
      ⟨io, st', k', tr⟩
    have hak : st'.apiKey = st.apiKey := by
      obtain ⟨j, hj⟩ := (iterBody_state T roa ra hah tgt a st k le io st' k' tr hIB).1
      rw [hj]
    cases io with
    | success b =>
      rw [reqLoopCore_succ_success T (refreshTokenInternal T) roa ra hah tgt fuel a st k le b st' k' tr hIB]
      exact hak
    | failed e =>
      rw [reqLoopCore_succ_failed T (refreshTokenInternal T) roa ra hah tgt fuel a st k le e st' k' tr hIB]
      exact hak
    | again e d =>
      rw [reqLoopCore_succ_again T (refreshTokenInternal T) roa ra hah tgt fuel a st k le e d st' k' tr hIB]
      exact (ih (a + 1) st' k' (some e)).trans hak

/-- When the loop returns successfully and a session token was present
at entry, a session token is still present. -/
theorem loop_ok_jwt (T : Nat → FetchResult) (roa ra hah : Bool) (tgt : Target) :
    ∀ (fuel a : Nat) (st : ClientState) (k : Nat) (le : Option SbError),
      st.jwt.isSome = true →
      exOk (reqLoopCore T (refreshTokenInternal T) roa ra hah tgt fuel a st k le).result = true →
      (reqLoopCore T (refreshTokenInternal T) roa ra hah tgt fuel a st k le).st.jwt.isSome = true := by
  intro fuel
  induction fuel with
  | zero =>
    intro a st k le hj hok
    rw [reqLoopCore_zero] at hok
    simp [exOk] at hok
  | succ fuel ih =>
    intro a st k le hj hok
    rcases hIB : iterBody T (refreshTokenInternal T) roa ra hah tgt a st k le with
      ⟨io, st', k', tr⟩
    have hstate := iterBody_state T roa ra hah tgt a st k le io st' k' tr hIB
    cases io with
    | success b =>
      rw [reqLoopCore_succ_success T (refreshTokenInternal T) roa ra hah tgt fuel a st k le b st' k' tr hIB]
      rcases hstate.2 hj with ⟨e, he⟩ | hs
      · exact absurd he (by intro hc; cases hc)
      · exact hs
    | failed e =>
      rw [reqLoopCore_succ_failed T (refreshTokenInternal T) roa ra hah tgt fuel a st k le e st' k' tr hIB] at hok
      simp [exOk] at hok
    | again e d =>
      rw [reqLoopCore_succ_again T (refreshTokenInternal T) roa ra hah tgt fuel a st k le e d st' k' tr hIB] at hok ⊢
      have hs : st'.jwt.isSome = true := by
        rcases hstate.2 hj with ⟨e2, he⟩ | hs
        · exact absurd he (by intro hc; cases hc)
        · exact hs
      exact ih (a + 1) st' k' (some e) hs hok

/-- Shifting the base of the exponential-backoff sequence by one. -/
theorem range_map_shift (rd a m : Nat) :
    (List.range (m + 1)).map (fun i => rd * 2 ^ (a + i)) =
      rd * 2 ^ a :: (List.range m).map (fun i => rd * 2 ^ ((a + 1) + i)) := by
  have hf : ((fun i => rd * 2 ^ (a + i)) ∘ Nat.succ) = (fun i => rd * 2 ^ ((a + 1) + i)) := by
    funext i
    show rd * 2 ^ (a + (i + 1)) = _
    rw [show a + (i + 1) = (a + 1) + i from by omega]
  rw [List.range_succ_eq_map, List.map_cons, List.map_map, hf]
  simp

/-- C2 engine, part 1: the backoff sleeps of a loop run started at
attempt `a` are exactly `retryDelay * 2 ^ (a + i)` for consecutive `i`. -/
theorem loop_sleeps (T : Nat → FetchResult) (roa ra hah : Bool) (tgt : Target)
    (htgt : tgt ≠ Target.refresh) :
    ∀ (fuel a : Nat) (st : ClientState) (k : Nat) (le : Option SbError), ∃ m,
      sleepsOf tgt (reqLoopCore T (refreshTokenInternal T) roa ra hah tgt fuel a st k le).trace =
        (List.range m).map (fun i => st.retryDelay * 2 ^ (a + i)) := by
  intro fuel
  induction fuel with
  | zero => intro a st k le; exact ⟨0, by rw [reqLoopCore_zero]; rfl⟩
  | succ fuel ih =>
    intro a st k le
    rcases hIB : iterBody T (refreshTokenInternal T) roa ra hah tgt a st k le with
      ⟨io, st', k', tr⟩
    rcases iterBody_trace T roa ra hah tgt htgt a st k le io st' k' tr hIB with
      ⟨h1, e, hio⟩ | ⟨pre, r, h1, hpre, hcase⟩
    · rw [hio] at hIB
      refine ⟨0, ?_⟩
      rw [reqLoopCore_succ_failed T (refreshTokenInternal T) roa ra hah tgt fuel a st k le e st' k' tr hIB]
      rw [sleepsOf_of_evsOf_nil tgt tr h1]
      rfl
    · have htr0 : sleepsOf tgt tr = [] := by
        rw [h1, sleepsOf_append, sleepsOf_of_evsOf_nil tgt pre hpre]
        simp [sleepsOf]
      rcases hcase with ⟨b, hio⟩ | ⟨e, hio⟩ | ⟨e, hio, hoff⟩
      · rw [hio] at hIB
        refine ⟨0, ?_⟩
        rw [reqLoopCore_succ_success T (refreshTokenInternal T) roa ra hah tgt fuel a st k le b st' k' tr hIB]
        rw [htr0]
        rfl
      · rw [hio] at hIB
        refine ⟨0, ?_⟩
        rw [reqLoopCore_succ_failed T (refreshTokenInternal T) roa ra hah tgt fuel a st k le e st' k' tr hIB]
        rw [htr0]
        rfl
      · rw [hio] at hIB
        obtain ⟨m, hm⟩ := ih (a + 1) st' k' (some e)
        have hrd : st'.retryDelay = st.retryDelay := by
          obtain ⟨j, hj⟩ := (iterBody_state T roa ra hah tgt a st k le _ st' k' tr hIB).1
          rw [hj]
        refine ⟨m + 1, ?_⟩
        rw [reqLoopCore_succ_again T (refreshTokenInternal T) roa ra hah tgt fuel a st k le e
          (st.retryDelay * 2 ^ a) st' k' tr hIB]
        rw [sleepsOf_append, htr0]
        rw [hrd] at hm
        simp only [sleepsOf, beq_self_eq_true, if_true, List.nil_append]
        rw [hm, range_map_shift]

/-- C2 engine, part 2: the first event of the request's own target, if
any, is a physical send — the first attempt is never delayed. -/
theorem loop_head (T : Nat → FetchResult) (roa ra hah : Bool) (tgt : Target)
    (htgt : tgt ≠ Target.refresh) :
    ∀ (fuel a : Nat) (st : ClientState) (k : Nat) (le : Option SbError),
      (evsOf tgt (reqLoopCore T (refreshTokenInternal T) roa ra hah tgt fuel a st k le).trace).head? = none ∨
      (evsOf tgt (reqLoopCore T (refreshTokenInternal T) roa ra hah tgt fuel a st k le).trace).head? =
        some (Ev.send tgt) := by
  intro fuel a st k le
  cases fuel with
  | zero => left; rw [reqLoopCore_zero]; rfl
  | succ fuel =>
    rcases hIB : iterBody T (refreshTokenInternal T) roa ra hah tgt a st k le with
      ⟨io, st', k', tr⟩
    rcases iterBody_trace T roa ra hah tgt htgt a st k le io st' k' tr hIB with
      ⟨h1, e, hio⟩ | ⟨pre, r, h1, hpre, hcase⟩
    · rw [hio] at hIB
      left
      rw [reqLoopCore_succ_failed T (refreshTokenInternal T) roa ra hah tgt fuel a st k le e st' k' tr hIB]
      rw [h1]
      rfl
    · have hhead : ∀ rest, (evsOf tgt (tr ++ rest)).head? = some (Ev.send tgt) := by
        intro rest
        rw [h1, List.append_assoc, evsOf_append, hpre, List.nil_append]
        simp [evsOf, evTarget]
      rcases hcase with ⟨b, hio⟩ | ⟨e, hio⟩ | ⟨e, hio, _⟩
      · rw [hio] at hIB
        right
        rw [reqLoopCore_succ_success T (refreshTokenInternal T) roa ra hah tgt fuel a st k le b st' k' tr hIB]
        have := hhead []
        rw [List.append_nil] at this
        exact this
      · rw [hio] at hIB
        right
        rw [reqLoopCore_succ_failed T (refreshTokenInternal T) roa ra hah tgt fuel a st k le e st' k' tr hIB]
        have := hhead []
        rw [List.append_nil] at this
        exact this
      · rw [hio] at hIB
        right
        rw [reqLoopCore_succ_again T (refreshTokenInternal T) roa ra hah tgt fuel a st k le e
          (st.retryDelay * 2 ^ a) st' k' tr hIB]
        exact hhead _

/-- A trace whose main-request deliveries are all retryable-or-success
outcomes (never `ClientError`/`ParseError`) triggers no post-offense
send count. -/
theorem sAO_of_clean (xs : List Ev)
    (h : ∀ r, Ev.recv Target.main r ∈ xs → offendingOutcome r = false) :
    sendsAfterOffense xs = 0 := by
  induction xs with
  | nil => rfl
  | cons x xs ih =>
    have ih' := ih (fun r hr => h r (by simp [hr]))
    cases x with
    | recv t r =>
      cases t with
      | main =>
        have hoff := h r (by simp)
        simp [sendsAfterOffense, hoff, ih']
      | refresh => simpa [sendsAfterOffense] using ih'
      | eventsPost => simpa [sendsAfterOffense] using ih'
      | eventsGet => simpa [sendsAfterOffense] using ih'
    | send t => simpa [sendsAfterOffense] using ih'
    | sleepMs t d => simpa [sendsAfterOffense] using ih'
    | refreshCall => simpa [sendsAfterOffense] using ih'
    | setJwtEv tok => simpa [sendsAfterOffense] using ih'
    | clearJwtEv => simpa [sendsAfterOffense] using ih'

/-- Dropping an offense-free prefix. -/
theorem sAO_append_of_clean (xs ys : List Ev)
    (h : ∀ r, Ev.recv Target.main r ∈ xs → offendingOutcome r = false) :
    sendsAfterOffense (xs ++ ys) = sendsAfterOffense ys := by
  induction xs with
  | nil => rfl
  | cons x xs ih =>
    have ih' := ih (fun r hr => h r (by simp [hr]))
    cases x with
    | recv t r =>
      cases t with
      | main =>
        have hoff := h r (by simp)
        simp [sendsAfterOffense, hoff, ih']
      | refresh => simpa [sendsAfterOffense] using ih'
      | eventsPost => simpa [sendsAfterOffense] using ih'
      | eventsGet => simpa [sendsAfterOffense] using ih'
    | send t => simpa [sendsAfterOffense] using ih'
    | sleepMs t d => simpa [sendsAfterOffense] using ih'
    | refreshCall => simpa [sendsAfterOffense] using ih'
    | clearJwtEv => simpa [sendsAfterOffense] using ih'
    | setJwtEv tok => simpa [sendsAfterOffense] using ih'

/-- C8 engine: in any loop run of the main request, once a
`ClientError`/`ParseError` outcome is delivered, no further physical
send of the main request happens. -/
theorem loop_sAO (T : Nat → FetchResult) (roa ra hah : Bool) :
    ∀ (fuel a : Nat) (st : ClientState) (k : Nat) (le : Option SbError),
      sendsAfterOffense
        (reqLoopCore T (refreshTokenInternal T) roa ra hah Target.main fuel a st k le).trace = 0 := by
  intro fuel
  induction fuel with
  | zero => intro a st k le; rw [reqLoopCore_zero]; rfl
  | succ fuel ih =>
    intro a st k le
    have hmain : Target.main ≠ Target.refresh := by simp
    rcases hIB : iterBody T (refreshTokenInternal T) roa ra hah Target.main a st k le with
      ⟨io, st', k', tr⟩
    rcases iterBody_trace T roa ra hah Target.main hmain a st k le io st' k' tr hIB with
      ⟨h1, e, hio⟩ | ⟨pre, r, h1, hpre, hcase⟩
    · rw [hio] at hIB
      rw [reqLoopCore_succ_failed T (refreshTokenInternal T) roa ra hah Target.main fuel a st k le e st' k' tr hIB]
      exact sAO_of_clean tr (fun r hr =>
        absurd rfl (evsOf_nil_no_mem Target.main tr h1 _ hr))
    · have hclean_pre : ∀ r2, Ev.recv Target.main r2 ∈ pre → offendingOutcome r2 = false :=
        fun r2 hr2 => absurd rfl (evsOf_nil_no_mem Target.main pre hpre _ hr2)
      have hterm : sendsAfterOffense tr = 0 := by
        rw [h1, sAO_append_of_clean pre _ hclean_pre]
        cases hoff : offendingOutcome r <;> simp [sendsAfterOffense, countSends, hoff]
      rcases hcase with ⟨b, hio⟩ | ⟨e, hio⟩ | ⟨e, hio, hoff⟩
      · rw [hio] at hIB
        rw [reqLoopCore_succ_success T (refreshTokenInternal T) roa ra hah Target.main fuel a st k le b st' k' tr hIB]
        exact hterm
      · rw [hio] at hIB
        rw [reqLoopCore_succ_failed T (refreshTokenInternal T) roa ra hah Target.main fuel a st k le e st' k' tr hIB]
        exact hterm
      · rw [hio] at hIB
        rw [reqLoopCore_succ_again T (refreshTokenInternal T) roa ra hah Target.main fuel a st k le e
          (st.retryDelay * 2 ^ a) st' k' tr hIB]
        have hclean : ∀ r2, Ev.recv Target.main r2 ∈ tr ++ [Ev.sleepMs Target.main (st.retryDelay * 2 ^ a)] →
            offendingOutcome r2 = false := by
          intro r2 hr2
          rcases List.mem_append.mp hr2 with hr2 | hr2
          · rw [h1] at hr2
            rcases List.mem_append.mp hr2 with hr2 | hr2
            · exact hclean_pre r2 hr2
            · have hr : r2 = r := by simpa using hr2
              rw [hr]
              exact hoff
          · simp at hr2
        calc sendsAfterOffense (tr ++ Ev.sleepMs Target.main (st.retryDelay * 2 ^ a) ::
            (reqLoopCore T (refreshTokenInternal T) roa ra hah Target.main fuel (a + 1) st' k' (some e)).trace)
            = sendsAfterOffense ((tr ++ [Ev.sleepMs Target.main (st.retryDelay * 2 ^ a)]) ++
              (reqLoopCore T (refreshTokenInternal T) roa ra hah Target.main fuel (a + 1) st' k' (some e)).trace) := by
              rw [List.append_assoc]
              rfl
          _ = sendsAfterOffense
              (reqLoopCore T (refreshTokenInternal T) roa ra hah Target.main fuel (a + 1) st' k' (some e)).trace :=
              sAO_append_of_clean _ _ hclean
          _ = 0 := ih (a + 1) st' k' (some e)

/-- Whenever the missing-credential check cannot fire (header supplied,
auth not required, or a credential present), the iteration performs its
fetch: the trace is exactly one send and one delivery. -/
theorem iterFetch_send (T : Nat → FetchResult) (roa ra hah : Bool) (tgt : Target)
    (a : Nat) (st : ClientState) (k : Nat) (io : IterOut) (st' : ClientState)
    (k' : Nat) (tr : List Ev)
    (hcred : ¬ ((ra && !hah && !st.apiKey.isSome && !st.jwt.isSome) = true))
    (h : iterFetch T roa ra hah tgt a st k = (io, st', k', tr)) :
    tr = [Ev.send tgt, Ev.recv tgt (T k)] := by
  rw [iterFetch, if_neg hcred] at h
  dsimp only at h
  rcases hE : evalResponse st roa a (T k) with es | bdy
  · cases es with
    | retry e d =>
      rw [hE] at h
      simp only [Prod.mk.injEq] at h
      exact h.2.2.2.symm
    | thrown e =>
      rw [hE] at h
      simp only [Prod.mk.injEq] at h
      exact h.2.2.2.symm
  · rw [hE] at h
    simp only [Prod.mk.injEq] at h
    exact h.2.2.2.symm

/-- C10 engine: a request run with a pre-supplied header always makes
at least one physical send of its target. -/
theorem loop_first_send (T : Nat → FetchResult) (roa ra : Bool) (tgt : Target)
    (fuel a : Nat) (st : ClientState) (k : Nat) :
    1 ≤ countSends tgt
      (reqLoopCore T (refreshTokenInternal T) roa ra true tgt (fuel + 1) a st k none).trace := by
  rcases hF : iterFetch T roa ra true tgt a st k with ⟨io, st', k', tr⟩
  have hIB : iterBody T (refreshTokenInternal T) roa ra true tgt a st k none = (io, st', k', tr) := by
    simp only [iterBody]
    exact hF
  have htr : tr = [Ev.send tgt, Ev.recv tgt (T k)] :=
    iterFetch_send T roa ra true tgt a st k io st' k' tr (by simp) hF
  cases io with
  | success b =>
    rw [reqLoopCore_succ_success T (refreshTokenInternal T) roa ra true tgt fuel a st k none b st' k' tr hIB, htr]
    simp [countSends]
  | failed e =>
    rw [reqLoopCore_succ_failed T (refreshTokenInternal T) roa ra true tgt fuel a st k none e st' k' tr hIB, htr]
    simp [countSends]
  | again e d =>
    rw [reqLoopCore_succ_again T (refreshTokenInternal T) roa ra true tgt fuel a st k none e d st' k' tr hIB, htr]
    simp only [countSends_append]
    simp [countSends]

/-- Refresh entries of one iteration: at most one, and none at all in
the first iteration of a request. -/
theorem iterBody_refreshCalls (T : Nat → FetchResult) (roa ra hah : Bool) (tgt : Target)
    (a : Nat) (st : ClientState) (k : Nat) (le : Option SbError)
    (io : IterOut) (st' : ClientState) (k' : Nat) (tr : List Ev)
    (h : iterBody T (refreshTokenInternal T) roa ra hah tgt a st k le = (io, st', k', tr)) :
    countRefreshCalls tr ≤ 1 ∧ (a = 0 → countRefreshCalls tr = 0) := by
  have hFetch : ∀ (stf : ClientState) (kf : Nat) (io2 : IterOut) (st2 : ClientState)
      (k2 : Nat) (ftr : List Ev), iterFetch T roa ra hah tgt a stf kf = (io2, st2, k2, ftr) →
      countRefreshCalls ftr = 0 := by
    intro stf kf io2 st2 k2 ftr hF
    rcases (iterFetch_char T roa ra hah tgt a stf kf io2 st2 k2 ftr hF).2 with
      ⟨h1, _⟩ | ⟨r, h1, _⟩ <;> rw [h1] <;> simp [countRefreshCalls]
  cases le with
  | none =>
    simp only [iterBody] at h
    have := hFetch st k io st' k' tr h
    omega
  | some le =>
    simp only [iterBody] at h
    by_cases hg : (decide (0 < a) && (le.statusCode == some 401) && st.jwt.isSome
        && st.autoRefreshToken && roa) = true
    · rw [if_pos hg] at h
      have ha : 0 < a := by
        simp only [Bool.and_eq_true, decide_eq_true_eq] at hg
        exact hg.1.1.1.1
      rcases hR : refreshTokenInternal T st k with ⟨rres, rst, rk, rtr⟩
      have hrtr : countRefreshCalls rtr = 0 := by
        have hx := refreshTokenInternal_noRefreshCall T st k
        rw [hR] at hx
        exact hx
      rw [hR] at h
      dsimp only at h
      cases rres with
      | ok u =>
        rcases hF : iterFetch T roa ra hah tgt a rst rk with ⟨fio, fst, fk, ftr⟩
        rw [hF] at h
        dsimp only at h
        simp only [Prod.mk.injEq] at h
        obtain ⟨_, _, _, htr⟩ := h
        have hf0 := hFetch rst rk fio fst fk ftr hF
        rw [← htr]
        constructor
        · simp [countRefreshCalls, countRefreshCalls_append, hrtr, hf0]
        · intro h0; omega
      | error e0 =>
        rcases handleSbe_eq rst roa a le with hs | ⟨hs, _, _, _⟩ <;> rw [hs] at h <;>
          simp only [Prod.mk.injEq] at h <;> obtain ⟨_, _, _, htr⟩ := h <;> rw [← htr]
        · constructor
          · simp [countRefreshCalls, hrtr]
          · intro h0; omega
        · constructor
          · simp [countRefreshCalls, hrtr]
          · intro h0; omega
    · rw [if_neg hg] at h
      have := hFetch st k io st' k' tr h
      omega

/-- C4 engine: a loop run entered at attempt 0 performs at most
`fuel - 1` refresh cycles (the first iteration can never refresh). -/
theorem loop_refreshCalls (T : Nat → FetchResult) (roa ra hah : Bool) (tgt : Target) :
    ∀ (fuel a : Nat) (st : ClientState) (k : Nat) (le : Option SbError),
      countRefreshCalls (reqLoopCore T (refreshTokenInternal T) roa ra hah tgt fuel a st k le).trace ≤
        (if a = 0 then fuel - 1 else fuel) := by
  intro fuel
  induction fuel with
  | zero =>
    intro a st k le
    rw [reqLoopCore_zero]
    simp [countRefreshCalls]
  | succ fuel ih =>
    intro a st k le
    rcases hIB : iterBody T (refreshTokenInternal T) roa ra hah tgt a st k le with
      ⟨io, st', k', tr⟩
    obtain ⟨hle1, hzero⟩ := iterBody_refreshCalls T roa ra hah tgt a st k le io st' k' tr hIB
    cases io with
    | success b =>
      rw [reqLoopCore_succ_success T (refreshTokenInternal T) roa ra hah tgt fuel a st k le b st' k' tr hIB]
      dsimp only
      by_cases ha : a = 0
      · rw [if_pos ha, hzero ha]; omega
      · rw [if_neg ha]; omega
    | failed e =>
      rw [reqLoopCore_succ_failed T (refreshTokenInternal T) roa ra hah tgt fuel a st k le e st' k' tr hIB]
      dsimp only
      by_cases ha : a = 0
      · rw [if_pos ha, hzero ha]; omega
      · rw [if_neg ha]; omega
    | again e d =>
      rw [reqLoopCore_succ_again T (refreshTokenInternal T) roa ra hah tgt fuel a st k le e d st' k' tr hIB]
      have hrest := ih (a + 1) st' k' (some e)
      rw [if_neg (by omega : ¬ (a + 1 = 0))] at hrest
      have hcons : countRefreshCalls (Ev.sleepMs tgt d ::
          (reqLoopCore T (refreshTokenInternal T) roa ra hah tgt fuel (a + 1) st' k' (some e)).trace) =
          countRefreshCalls (reqLoopCore T (refreshTokenInternal T) roa ra hah tgt fuel (a + 1) st' k' (some e)).trace := by
        simp [countRefreshCalls]
      simp only [countRefreshCalls_append, hcons]
      by_cases ha : a = 0
      · rw [if_pos ha]
        rw [hzero ha]
        omega
      · rw [if_neg ha]
        omega

/-- The exponential-backoff sequence is strictly increasing when the
base delay is positive. -/
theorem backoff_pairwise (rd m : Nat) (hrd : 0 < rd) :
    ((List.range m).map (fun i => rd * 2 ^ i)).Pairwise (· < ·) := by
  refine List.Pairwise.map _ (fun a b hab => ?_) (List.pairwise_lt_range m)
  have hp : (2 : Nat) ^ a < 2 ^ b := Nat.pow_lt_pow_right (by norm_num) hab
  exact Nat.mul_lt_mul_of_le_of_lt (Nat.le_refl rd) hp hrd

/-- C1: for every request executed through the retry loop — whatever
the per-call flags, credentials and transport behaviour — the number of
physical sends of that request is at most `maxRetries + 1`; with the
default `maxRetries = 3` this is at most 4 sends.  (Sends performed by a
nested token refresh go to `/auth/refresh` and are not sends of this
request.) -/
theorem c1_sends_at_most_maxRetries_succ :
    (∀ (transport : Nat → FetchResult) (roa ra hah : Bool) (st : ClientState) (k : Nat),
      countSends Target.main (request transport roa ra hah Target.main st k).trace ≤
        st.maxRetries + 1) ∧
    (∀ (transport : Nat → FetchResult) (roa ra hah : Bool) (ak j : Option String)
        (ar : Bool) (rd k : Nat),
      countSends Target.main
        (request transport roa ra hah Target.main
          { apiKey := ak, jwt := j, maxRetries := 3, retryDelay := rd
            autoRefreshToken := ar } k).trace ≤ 4) := by
  constructor
  · intro transport roa ra hah st k
    unfold request
    exact loop_sends_bound transport roa ra hah Target.main (by simp)
      (st.maxRetries + 1) 0 st k none
  · intro transport roa ra hah ak j ar rd k
    unfold request
    exact loop_sends_bound transport roa ra hah Target.main (by simp) 4 0 _ k none

/-- C2: in every run of the retry loop the backoff waits of the request
are exactly `retryDelay * 2 ^ i` for consecutive `i` starting at 0 (so
the wait before physical attempt `k` is `retryDelay * 2 ^ (k - 1)`),
the first event of the request is a physical send — never a wait — and
with a positive base delay the waits are strictly increasing. -/
theorem c2_exponential_backoff (transport : Nat → FetchResult) (roa ra hah : Bool)
    (st : ClientState) (k : Nat) :
    (∃ m, sleepsOf Target.main (request transport roa ra hah Target.main st k).trace =
      (List.range m).map (fun i => st.retryDelay * 2 ^ i)) ∧
    ((evsOf Target.main (request transport roa ra hah Target.main st k).trace).head? = none ∨
     (evsOf Target.main (request transport roa ra hah Target.main st k).trace).head? =
       some (Ev.send Target.main)) ∧
    (0 < st.retryDelay →
      (sleepsOf Target.main (request transport roa ra hah Target.main st k).trace).Pairwise
        (· < ·)) := by
  obtain ⟨m, hm⟩ := loop_sleeps transport roa ra hah Target.main (by simp)
    (st.maxRetries + 1) 0 st k none
  simp only [Nat.zero_add] at hm
  have hm' : sleepsOf Target.main (request transport roa ra hah Target.main st k).trace =
      (List.range m).map (fun i => st.retryDelay * 2 ^ i) := by
    unfold request
    exact hm
  refine ⟨⟨m, hm'⟩, ?_, ?_⟩
  · have := loop_head transport roa ra hah Target.main (by simp) (st.maxRetries + 1) 0 st k none
    unfold request
    exact this
  · intro hrd
    rw [hm']
    exact backoff_pairwise st.retryDelay m hrd

/-- C4, counterexample: with a session token, auto-refresh and the
default `maxRetries = 3`, a server that keeps answering the main
request with 401 while every refresh succeeds drives the executor
through three full refresh-and-retry cycles — 3 refresh calls and 4
sends of the main request — rather than surfacing the second 401
immediately after the first successful refresh. -/
theorem c4_counterexample :
    countRefreshCalls (request alt401Transport true true true Target.main tokState 0).trace = 3 ∧
    countSends Target.refresh (request alt401Transport true true true Target.main tokState 0).trace = 3 ∧
    countSends Target.main (request alt401Transport true true true Target.main tokState 0).trace = 4 := by
  refine ⟨?_, ?_, ?_⟩ <;> rfl

/-- C4, amended: repeated 401s after successful refreshes are still
bounded — the executor performs at most `maxRetries` refresh cycles and
at most `maxRetries + 1` sends of the request, because each
refresh-and-resend consumes a slot of the shared retry budget. -/
theorem c4_amended_refresh_cycles_bounded (transport : Nat → FetchResult)
    (roa ra hah : Bool) (st : ClientState) (k : Nat) :
    countRefreshCalls (request transport roa ra hah Target.main st k).trace ≤ st.maxRetries ∧
    countSends Target.main (request transport roa ra hah Target.main st k).trace ≤
      st.maxRetries + 1 := by
  constructor
  · have h := loop_refreshCalls transport roa ra hah Target.main (st.maxRetries + 1) 0 st k none
    rw [if_pos rfl] at h
    unfold request
    simpa using h
  · unfold request
    exact loop_sends_bound transport roa ra hah Target.main (by simp)
      (st.maxRetries + 1) 0 st k none

/-- C8: for every run of the retry loop, once an outcome classified
`ClientError` (4xx other than 401 with a parseable body) or `ParseError`
(JSON decode failure on a 2xx response) is delivered to the request, no
further physical send of that request occurs — the error is surfaced
without retry. -/
theorem c8_client_parse_errors_never_resent (transport : Nat → FetchResult)
    (roa ra hah : Bool) (st : ClientState) (k : Nat) :
    sendsAfterOffense (request transport roa ra hah Target.main st k).trace = 0 := by
  unfold request
  exact loop_sAO transport roa ra hah (st.maxRetries + 1) 0 st k none

/-- C3, counterexample: in the interleaved execution `raceRun`, request
1 observes its `AuthError` (trace position 6) while request 0's refresh
is already in flight (sent at position 5, resolved at position 10), yet
the client issues a second refresh call (position 9): two refresh calls
reach the server, not one.  The trace below is the complete run. -/
theorem c3_counterexample :
    countSends Target.refresh raceRun.trace = 2 ∧
    raceRun.trace =
      [Ev.send Target.main,
       Ev.send Target.main,
       Ev.recv Target.main (.response 401 (.parsed (some "unauthorized") .obj)),
       Ev.sleepMs Target.main 1000,
       Ev.refreshCall,
       Ev.send Target.refresh,
       Ev.recv Target.main (.response 401 (.parsed (some "unauthorized") .obj)),
       Ev.sleepMs Target.main 1000,
       Ev.refreshCall,
       Ev.send Target.refresh,
       Ev.recv Target.refresh (.response 200 (.parsed none (.auth (some "ta")))),
       Ev.setJwtEv "ta",
       Ev.send Target.main,
       Ev.recv Target.refresh (.response 200 (.parsed none (.auth (some "tb")))),
       Ev.setJwtEv "tb",
       Ev.send Target.main,
       Ev.recv Target.main (.response 200 (.parsed none .obj)),
       Ev.recv Target.main (.response 200 (.parsed none .obj))] := by
  exact ⟨rfl, rfl⟩

/-- C3, amended: the client keeps no in-flight marker, so each request
that observes a 401 starts its own refresh: in the exhibited
interleaving the two concurrent requests issue two refresh calls (one
each), both refreshes are sent to the server, and both requests then
complete successfully — each attached to its own refresh's outcome, the
later of which overwrites the session token. -/
theorem c3_amended_no_single_flight :
    countRefreshCalls raceRun.trace = 2 ∧
    countSends Target.refresh raceRun.trace = 2 ∧
    raceRun.threads =
      [.finished (.ok (.parsed none .obj)), .finished (.ok (.parsed none .obj))] ∧
    raceRun.shared.jwt = some "tb" := by
  exact ⟨rfl, rfl, rfl, rfl⟩

/-- With `retryOnAuth = false` a `SkillBaseError` is never retried. -/
theorem handleSbe_false (st : ClientState) (a : Nat) (e : SbError) :
    handleSbe st false a e = .thrown e := by
  unfold handleSbe
  simp

/-- A `retryOnAuth = false` run whose transport never fails at the
network level terminates after exactly one send: its whole trace is
that send and its delivery. -/
theorem loop_noauth_trace (T : Nat → FetchResult) (ra hah : Bool) (tgt : Target)
    (m a k : Nat) (st : ClientState) (hT : ∀ i, T i ≠ FetchResult.netFail)
    (hcred : ¬ ((ra && !hah && !st.apiKey.isSome && !st.jwt.isSome) = true)) :
    (reqLoopCore T (refreshTokenInternal T) false ra hah tgt (m + 1) a st k none).trace =
      [Ev.send tgt, Ev.recv tgt (T k)] := by
  rcases hF : iterFetch T false ra hah tgt a st k with ⟨io, st', k', tr⟩
  have hIB : iterBody T (refreshTokenInternal T) false ra hah tgt a st k none =
      (io, st', k', tr) := by
    simp only [iterBody]
    exact hF
  have htr : tr = [Ev.send tgt, Ev.recv tgt (T k)] :=
    iterFetch_send T false ra hah tgt a st k io st' k' tr hcred hF
  have hio : (∃ b, io = .success b) ∨ (∃ e, io = .failed e) := by
    rw [iterFetch, if_neg hcred] at hF
    dsimp only at hF
    rcases hTk : T k with _ | msg | ⟨s, b⟩
    · exact absurd hTk (hT k)
    · rw [hTk] at hF
      simp only [evalResponse, Prod.mk.injEq] at hF
      exact Or.inr ⟨_, hF.1.symm⟩
    · rw [hTk] at hF
      cases b with
      | malformed raw =>
        simp only [evalResponse, Prod.mk.injEq] at hF
        exact Or.inr ⟨_, hF.1.symm⟩
      | parsed mm pp =>
        simp only [evalResponse] at hF
        by_cases hok : respOk s = true
        · rw [if_pos hok] at hF
          simp only [Prod.mk.injEq] at hF
          exact Or.inl ⟨_, hF.1.symm⟩
        · rw [if_neg hok, handleSbe_false] at hF
          simp only [Prod.mk.injEq] at hF
          exact Or.inr ⟨_, hF.1.symm⟩
  rcases hio with ⟨b, hio⟩ | ⟨e, hio⟩
  · rw [hio] at hIB
    rw [reqLoopCore_succ_success T (refreshTokenInternal T) false ra hah tgt m a st k none b st' k' tr hIB]
    exact htr
  · rw [hio] at hIB
    rw [reqLoopCore_succ_failed T (refreshTokenInternal T) false ra hah tgt m a st k none e st' k' tr hIB]
    exact htr

/-- C7: a call whose policy requires authentication, made while neither
an API key nor a session token is set, fails with the
no-credential 401 `SkillBaseError` and performs zero physical sends —
its trace is empty. -/
theorem c7_no_credential_fail_fast (transport : Nat → FetchResult) (roa : Bool)
    (tgt : Target) (st : ClientState) (k : Nat)
    (hak : st.apiKey = none) (hjw : st.jwt = none) :
    (request transport roa true false tgt st k).result = .error noAuthError ∧
    (request transport roa true false tgt st k).trace = [] ∧
    countSends tgt (request transport roa true false tgt st k).trace = 0 := by
  have hIF : iterFetch transport roa true false tgt 0 st k =
      (.failed noAuthError, st, k, []) := by
    rw [iterFetch, if_pos (by simp [hak, hjw]),
      handleSbe_thrown_of_401_nojwt st roa 0 noAuthError rfl (by simp [hjw])]
  have hIB : iterBody transport (refreshTokenInternal transport) roa true false tgt 0 st k none =
      (.failed noAuthError, st, k, []) := by
    simp only [iterBody]
    exact hIF
  unfold request
  rw [reqLoopCore_succ_failed transport (refreshTokenInternal transport) roa true false tgt
    st.maxRetries 0 st k none noAuthError st k [] hIB]
  exact ⟨rfl, rfl, rfl⟩

/-- C7, witness: the no-credential fail-fast at a concrete client. -/
theorem c7_no_credential_fail_fast_witness :
    noCredState.apiKey = none ∧ noCredState.jwt = none ∧
    ((request netFailTransport true true false Target.main noCredState 0).result =
        .error noAuthError ∧
      (request netFailTransport true true false Target.main noCredState 0).trace = [] ∧
      countSends Target.main
        (request netFailTransport true true false Target.main noCredState 0).trace = 0) :=
  ⟨rfl, rfl, c7_no_credential_fail_fast netFailTransport true Target.main noCredState 0 rfl rfl⟩

/-- C5, counterexample: `register` against a transport that fails at
the network level on every attempt performs 4 physical sends (the
network-error branch retries even though `retryOnAuth = false`), not
exactly one. -/
theorem c5_counterexample :
    countSends Target.main (register netFailTransport noCredState).trace = 4 ∧
    (register netFailTransport noCredState).result = .error netError := by
  exact ⟨rfl, rfl⟩

/-- C5, amended: for any transport outcome other than a network
failure, `register` and `login` perform exactly one physical send, and
`refreshToken` (with a session token present) performs exactly one
physical send; none of them ever enters the token-refresh prologue.
Network failures, however, are retried with backoff up to `maxRetries`
even for these endpoints, because the network branch of the executor
does not consult `retryOnAuth`. -/
theorem c5_amended_single_send (T : Nat → FetchResult) (st : ClientState)
    (hT : ∀ i, T i ≠ FetchResult.netFail) :
    (countSends Target.main (register T st).trace = 1 ∧
      countRefreshCalls (register T st).trace = 0) ∧
    (countSends Target.main (login T st).trace = 1 ∧
      countRefreshCalls (login T st).trace = 0) ∧
    (st.jwt.isSome = true →
      countSends Target.main (refreshToken T st).trace = 1 ∧
      countRefreshCalls (refreshToken T st).trace = 0) := by
  have hcore : ∀ (ra hah : Bool),
      ¬ ((ra && !hah && !st.apiKey.isSome && !st.jwt.isSome) = true) →
      countSends Target.main (request T false ra hah Target.main st 0).trace = 1 ∧
      countRefreshCalls (request T false ra hah Target.main st 0).trace = 0 := by
    intro ra hah hcred
    have h := loop_noauth_trace T ra hah Target.main st.maxRetries 0 0 st hT hcred
    unfold request
    rw [h]
    constructor
    · simp [countSends]
    · simp [countRefreshCalls]
  refine ⟨?_, ?_, ?_⟩
  · obtain ⟨h1, h0⟩ := hcore false false (by simp)
    rcases hO : request T false false false Target.main st 0 with ⟨res, st0, k0, tr0⟩
    rw [hO] at h1 h0
    dsimp only at h1 h0
    unfold register
    rw [hO]
    dsimp only
    cases res with
    | error e => exact ⟨h1, h0⟩
    | ok b =>
      rcases ht : b.accessTokenField with _ | t
      · simp only [ht]
        exact ⟨h1, h0⟩
      · simp only [ht]
        rw [countSends_append, countRefreshCalls_append, h1, h0]
        exact ⟨rfl, rfl⟩
  · obtain ⟨h1, h0⟩ := hcore false false (by simp)
    rcases hO : request T false false false Target.main st 0 with ⟨res, st0, k0, tr0⟩
    rw [hO] at h1 h0
    dsimp only at h1 h0
    unfold login
    rw [hO]
    dsimp only
    cases res with
    | error e => exact ⟨h1, h0⟩
    | ok b =>
      rcases ht : b.accessTokenField with _ | t
      · simp only [ht]
        exact ⟨h1, h0⟩
      · simp only [ht]
        rw [countSends_append, countRefreshCalls_append, h1, h0]
        exact ⟨rfl, rfl⟩
  · intro hj
    obtain ⟨j, hjj⟩ := Option.isSome_iff_exists.mp hj
    obtain ⟨h1, h0⟩ := hcore true false (by simp [hjj])
    rcases hO : request T false true false Target.main st 0 with ⟨res, st0, k0, tr0⟩
    rw [hO] at h1 h0
    dsimp only at h1 h0
    unfold refreshToken
    rw [hjj, hO]
    dsimp only
    cases res with
    | error e => exact ⟨h1, h0⟩
    | ok b =>
      rcases ht : b.accessTokenField with _ | t
      · simp only [ht]
        exact ⟨h1, h0⟩
      · simp only [ht]
        rw [countSends_append, countRefreshCalls_append, h1, h0]
        exact ⟨rfl, rfl⟩

/-- C5, amended, witness: one send each against a server answering 500. -/
theorem c5_amended_single_send_witness :
    (∀ i, resp500Transport i ≠ FetchResult.netFail) ∧
    ((countSends Target.main (register resp500Transport tokState).trace = 1 ∧
        countRefreshCalls (register resp500Transport tokState).trace = 0) ∧
      (countSends Target.main (login resp500Transport tokState).trace = 1 ∧
        countRefreshCalls (login resp500Transport tokState).trace = 0) ∧
      (tokState.jwt.isSome = true →
        countSends Target.main (refreshToken resp500Transport tokState).trace = 1 ∧
        countRefreshCalls (refreshToken resp500Transport tokState).trace = 0)) :=
  ⟨fun i => by simp [resp500Transport],
   c5_amended_single_send resp500Transport tokState (fun i => by simp [resp500Transport])⟩

/-- C6, counterexample: first answer 401, then the network goes away.
The triggered refresh is retried on its network failures up to the
ceiling — 4 physical sends of `/auth/refresh`, not exactly one refresh
attempt — though the JWT is cleared once and the original `AuthError`
is surfaced. -/
theorem c6_counterexample :
    countSends Target.refresh (request c6NetTransport true true true Target.main tokState 0).trace = 4 ∧
    countClears (request c6NetTransport true true true Target.main tokState 0).trace = 1 ∧
    (request c6NetTransport true true true Target.main tokState 0).result =
      .error { message := "expired", statusCode := some 401, responseBody := some (.parsed (some "expired") .obj) } := by
  exact ⟨rfl, rfl, rfl⟩

/-- C6, amended: when the refresh exchange fails with an HTTP response
(here a 401 with any body), the refresh is not retried — exactly one
physical send of `/auth/refresh` — `clearJwt` runs exactly once, the
session token ends up absent, and the triggering request fails with the
original `AuthError` (status 401 and the first response's body), not
with the refresh's own error.  Network failures of the refresh are the
exception: they re-enter the executor's network retry path (see the
counterexample). -/
theorem c6_amended_http_refresh_failure (ak : Option String) (t : String) (m rd : Nat)
    (mA mB : Option String) (pA pB : Payload) :
    (request (firstThenTransport (FetchResult.response 401 (JsonBody.parsed mA pA)) (FetchResult.response 401 (JsonBody.parsed mB pB))) true true true Target.main { apiKey := ak, jwt := some t, maxRetries := m + 1, retryDelay := rd, autoRefreshToken := true } 0).result = .error { message := errMessage mA 401, statusCode := some 401, responseBody := some (JsonBody.parsed mA pA) } ∧
    countSends Target.refresh (request (firstThenTransport (FetchResult.response 401 (JsonBody.parsed mA pA)) (FetchResult.response 401 (JsonBody.parsed mB pB))) true true true Target.main { apiKey := ak, jwt := some t, maxRetries := m + 1, retryDelay := rd, autoRefreshToken := true } 0).trace = 1 ∧
    countClears (request (firstThenTransport (FetchResult.response 401 (JsonBody.parsed mA pA)) (FetchResult.response 401 (JsonBody.parsed mB pB))) true true true Target.main { apiKey := ak, jwt := some t, maxRetries := m + 1, retryDelay := rd, autoRefreshToken := true } 0).trace = 1 ∧
    (request (firstThenTransport (FetchResult.response 401 (JsonBody.parsed mA pA)) (FetchResult.response 401 (JsonBody.parsed mB pB))) true true true Target.main { apiKey := ak, jwt := some t, maxRetries := m + 1, retryDelay := rd, autoRefreshToken := true } 0).st.jwt = none ∧
    countSends Target.main (request (firstThenTransport (FetchResult.response 401 (JsonBody.parsed mA pA)) (FetchResult.response 401 (JsonBody.parsed mB pB))) true true true Target.main { apiKey := ak, jwt := some t, maxRetries := m + 1, retryDelay := rd, autoRefreshToken := true } 0).trace = 1 := by
  have hcond0 : (isRetryableError { apiKey := ak, jwt := some t, maxRetries := m + 1, retryDelay := rd, autoRefreshToken := true } { message := errMessage mA 401, statusCode := some 401, responseBody := some (JsonBody.parsed mA pA) } &&
      decide (0 < ({ apiKey := ak, jwt := some t, maxRetries := m + 1, retryDelay := rd, autoRefreshToken := true } : ClientState).maxRetries) && true) = true := by
    simp [isRetryableError]
  have hstep0 : handleSbe { apiKey := ak, jwt := some t, maxRetries := m + 1, retryDelay := rd, autoRefreshToken := true } true 0 { message := errMessage mA 401, statusCode := some 401, responseBody := some (JsonBody.parsed mA pA) } =
      .retry { message := errMessage mA 401, statusCode := some 401, responseBody := some (JsonBody.parsed mA pA) } (({ apiKey := ak, jwt := some t, maxRetries := m + 1, retryDelay := rd, autoRefreshToken := true } : ClientState).retryDelay * 2 ^ 0) := by
    unfold handleSbe
    rw [if_pos hcond0]
  have hF0 : iterFetch (firstThenTransport (FetchResult.response 401 (JsonBody.parsed mA pA)) (FetchResult.response 401 (JsonBody.parsed mB pB))) true true true Target.main 0 { apiKey := ak, jwt := some t, maxRetries := m + 1, retryDelay := rd, autoRefreshToken := true } 0 =
      (.again { message := errMessage mA 401, statusCode := some 401, responseBody := some (JsonBody.parsed mA pA) } (({ apiKey := ak, jwt := some t, maxRetries := m + 1, retryDelay := rd, autoRefreshToken := true } : ClientState).retryDelay * 2 ^ 0), { apiKey := ak, jwt := some t, maxRetries := m + 1, retryDelay := rd, autoRefreshToken := true }, 1,
        [Ev.send Target.main, Ev.recv Target.main (FetchResult.response 401 (JsonBody.parsed mA pA))]) := by
    rw [iterFetch, if_neg (by simp)]
    dsimp only
    rw [show (firstThenTransport (FetchResult.response 401 (JsonBody.parsed mA pA)) (FetchResult.response 401 (JsonBody.parsed mB pB))) 0 = (FetchResult.response 401 (JsonBody.parsed mA pA)) from rfl]
    simp only [evalResponse]
    rw [if_neg (by simp [respOk]), hstep0]
  have hIB0 : iterBody (firstThenTransport (FetchResult.response 401 (JsonBody.parsed mA pA)) (FetchResult.response 401 (JsonBody.parsed mB pB))) (refreshTokenInternal (firstThenTransport (FetchResult.response 401 (JsonBody.parsed mA pA)) (FetchResult.response 401 (JsonBody.parsed mB pB)))) true true true Target.main 0 { apiKey := ak, jwt := some t, maxRetries := m + 1, retryDelay := rd, autoRefreshToken := true } 0 none =
      (.again { message := errMessage mA 401, statusCode := some 401, responseBody := some (JsonBody.parsed mA pA) } (({ apiKey := ak, jwt := some t, maxRetries := m + 1, retryDelay := rd, autoRefreshToken := true } : ClientState).retryDelay * 2 ^ 0), { apiKey := ak, jwt := some t, maxRetries := m + 1, retryDelay := rd, autoRefreshToken := true }, 1,
        [Ev.send Target.main, Ev.recv Target.main (FetchResult.response 401 (JsonBody.parsed mA pA))]) := by
    simp only [iterBody]
    exact hF0
  have hFr : iterFetch (firstThenTransport (FetchResult.response 401 (JsonBody.parsed mA pA)) (FetchResult.response 401 (JsonBody.parsed mB pB))) false true false Target.refresh 0 { apiKey := ak, jwt := some t, maxRetries := m + 1, retryDelay := rd, autoRefreshToken := true } 1 =
      (.failed { message := errMessage mB 401, statusCode := some 401, responseBody := some (JsonBody.parsed mB pB) }, { apiKey := ak, jwt := some t, maxRetries := m + 1, retryDelay := rd, autoRefreshToken := true }, 2,
        [Ev.send Target.refresh, Ev.recv Target.refresh (FetchResult.response 401 (JsonBody.parsed mB pB))]) := by
    rw [iterFetch, if_neg (by simp)]
    dsimp only
    rw [show (firstThenTransport (FetchResult.response 401 (JsonBody.parsed mA pA)) (FetchResult.response 401 (JsonBody.parsed mB pB))) 1 = (FetchResult.response 401 (JsonBody.parsed mB pB)) from rfl]
    simp only [evalResponse]
    rw [if_neg (by simp [respOk]), handleSbe_false]
  have hIBr : iterBody (firstThenTransport (FetchResult.response 401 (JsonBody.parsed mA pA)) (FetchResult.response 401 (JsonBody.parsed mB pB))) dummyRefresh false true false Target.refresh 0 { apiKey := ak, jwt := some t, maxRetries := m + 1, retryDelay := rd, autoRefreshToken := true } 1 none =
      (.failed { message := errMessage mB 401, statusCode := some 401, responseBody := some (JsonBody.parsed mB pB) }, { apiKey := ak, jwt := some t, maxRetries := m + 1, retryDelay := rd, autoRefreshToken := true }, 2,
        [Ev.send Target.refresh, Ev.recv Target.refresh (FetchResult.response 401 (JsonBody.parsed mB pB))]) := by
    simp only [iterBody]
    exact hFr
  have hInner : reqLoopCore (firstThenTransport (FetchResult.response 401 (JsonBody.parsed mA pA)) (FetchResult.response 401 (JsonBody.parsed mB pB))) dummyRefresh false true false Target.refresh
      (({ apiKey := ak, jwt := some t, maxRetries := m + 1, retryDelay := rd, autoRefreshToken := true } : ClientState).maxRetries + 1) 0 { apiKey := ak, jwt := some t, maxRetries := m + 1, retryDelay := rd, autoRefreshToken := true } 1 none =
      { result := .error { message := errMessage mB 401, statusCode := some 401, responseBody := some (JsonBody.parsed mB pB) }, st := { apiKey := ak, jwt := some t, maxRetries := m + 1, retryDelay := rd, autoRefreshToken := true }, k := 2, trace := [Ev.send Target.refresh, Ev.recv Target.refresh (FetchResult.response 401 (JsonBody.parsed mB pB))] } :=
    reqLoopCore_succ_failed (firstThenTransport (FetchResult.response 401 (JsonBody.parsed mA pA)) (FetchResult.response 401 (JsonBody.parsed mB pB))) dummyRefresh false true false Target.refresh
      ({ apiKey := ak, jwt := some t, maxRetries := m + 1, retryDelay := rd, autoRefreshToken := true } : ClientState).maxRetries 0 { apiKey := ak, jwt := some t, maxRetries := m + 1, retryDelay := rd, autoRefreshToken := true } 1 none { message := errMessage mB 401, statusCode := some 401, responseBody := some (JsonBody.parsed mB pB) } { apiKey := ak, jwt := some t, maxRetries := m + 1, retryDelay := rd, autoRefreshToken := true } 2 _ hIBr
  have hRT : refreshTokenInternal (firstThenTransport (FetchResult.response 401 (JsonBody.parsed mA pA)) (FetchResult.response 401 (JsonBody.parsed mB pB))) { apiKey := ak, jwt := some t, maxRetries := m + 1, retryDelay := rd, autoRefreshToken := true } 1 =
      { result := .error { message := errMessage mB 401, statusCode := some 401, responseBody := some (JsonBody.parsed mB pB) }, st := { ({ apiKey := ak, jwt := some t, maxRetries := m + 1, retryDelay := rd, autoRefreshToken := true } : ClientState) with jwt := none }, k := 2, trace := [Ev.send Target.refresh, Ev.recv Target.refresh (FetchResult.response 401 (JsonBody.parsed mB pB))] ++ [Ev.clearJwtEv] } :=
    refreshTokenInternal_eq_error (firstThenTransport (FetchResult.response 401 (JsonBody.parsed mA pA)) (FetchResult.response 401 (JsonBody.parsed mB pB))) { apiKey := ak, jwt := some t, maxRetries := m + 1, retryDelay := rd, autoRefreshToken := true } 1 t { message := errMessage mB 401, statusCode := some 401, responseBody := some (JsonBody.parsed mB pB) } { apiKey := ak, jwt := some t, maxRetries := m + 1, retryDelay := rd, autoRefreshToken := true } 2 _ rfl hInner
  have hcond1 : (decide (0 < 1) && (({ message := errMessage mA 401, statusCode := some 401, responseBody := some (JsonBody.parsed mA pA) } : SbError).statusCode == some 401) &&
      ({ apiKey := ak, jwt := some t, maxRetries := m + 1, retryDelay := rd, autoRefreshToken := true } : ClientState).jwt.isSome && ({ apiKey := ak, jwt := some t, maxRetries := m + 1, retryDelay := rd, autoRefreshToken := true } : ClientState).autoRefreshToken && true) = true := by simp
  have hIB1 : iterBody (firstThenTransport (FetchResult.response 401 (JsonBody.parsed mA pA)) (FetchResult.response 401 (JsonBody.parsed mB pB))) (refreshTokenInternal (firstThenTransport (FetchResult.response 401 (JsonBody.parsed mA pA)) (FetchResult.response 401 (JsonBody.parsed mB pB)))) true true true Target.main 1 { apiKey := ak, jwt := some t, maxRetries := m + 1, retryDelay := rd, autoRefreshToken := true } 1 (some { message := errMessage mA 401, statusCode := some 401, responseBody := some (JsonBody.parsed mA pA) }) =
      (.failed { message := errMessage mA 401, statusCode := some 401, responseBody := some (JsonBody.parsed mA pA) }, { ({ apiKey := ak, jwt := some t, maxRetries := m + 1, retryDelay := rd, autoRefreshToken := true } : ClientState) with jwt := none }, 2,
        Ev.refreshCall :: ([Ev.send Target.refresh, Ev.recv Target.refresh (FetchResult.response 401 (JsonBody.parsed mB pB))] ++ [Ev.clearJwtEv])) := by
    simp only [iterBody]
    rw [if_pos hcond1, hRT]
    dsimp only
    rw [handleSbe_thrown_of_401_nojwt _ true 1 { message := errMessage mA 401, statusCode := some 401, responseBody := some (JsonBody.parsed mA pA) } rfl (by simp)]
  have hmain : request (firstThenTransport (FetchResult.response 401 (JsonBody.parsed mA pA)) (FetchResult.response 401 (JsonBody.parsed mB pB))) true true true Target.main { apiKey := ak, jwt := some t, maxRetries := m + 1, retryDelay := rd, autoRefreshToken := true } 0 =
      { result := .error { message := errMessage mA 401, statusCode := some 401, responseBody := some (JsonBody.parsed mA pA) }, st := { ({ apiKey := ak, jwt := some t, maxRetries := m + 1, retryDelay := rd, autoRefreshToken := true } : ClientState) with jwt := none }, k := 2, trace := [Ev.send Target.main, Ev.recv Target.main (FetchResult.response 401 (JsonBody.parsed mA pA))] ++
           Ev.sleepMs Target.main (({ apiKey := ak, jwt := some t, maxRetries := m + 1, retryDelay := rd, autoRefreshToken := true } : ClientState).retryDelay * 2 ^ 0) ::
             (Ev.refreshCall :: ([Ev.send Target.refresh, Ev.recv Target.refresh (FetchResult.response 401 (JsonBody.parsed mB pB))] ++ [Ev.clearJwtEv])) } := by
    unfold request
    rw [reqLoopCore_succ_again (firstThenTransport (FetchResult.response 401 (JsonBody.parsed mA pA)) (FetchResult.response 401 (JsonBody.parsed mB pB))) (refreshTokenInternal (firstThenTransport (FetchResult.response 401 (JsonBody.parsed mA pA)) (FetchResult.response 401 (JsonBody.parsed mB pB)))) true true true Target.main
      ({ apiKey := ak, jwt := some t, maxRetries := m + 1, retryDelay := rd, autoRefreshToken := true } : ClientState).maxRetries 0 { apiKey := ak, jwt := some t, maxRetries := m + 1, retryDelay := rd, autoRefreshToken := true } 0 none { message := errMessage mA 401, statusCode := some 401, responseBody := some (JsonBody.parsed mA pA) } (({ apiKey := ak, jwt := some t, maxRetries := m + 1, retryDelay := rd, autoRefreshToken := true } : ClientState).retryDelay * 2 ^ 0) { apiKey := ak, jwt := some t, maxRetries := m + 1, retryDelay := rd, autoRefreshToken := true } 1 _ hIB0]
    simp only [Nat.zero_add]
    rw [reqLoopCore_succ_failed (firstThenTransport (FetchResult.response 401 (JsonBody.parsed mA pA)) (FetchResult.response 401 (JsonBody.parsed mB pB))) (refreshTokenInternal (firstThenTransport (FetchResult.response 401 (JsonBody.parsed mA pA)) (FetchResult.response 401 (JsonBody.parsed mB pB)))) true true true Target.main
      m 1 { apiKey := ak, jwt := some t, maxRetries := m + 1, retryDelay := rd, autoRefreshToken := true } 1 (some { message := errMessage mA 401, statusCode := some 401, responseBody := some (JsonBody.parsed mA pA) }) { message := errMessage mA 401, statusCode := some 401, responseBody := some (JsonBody.parsed mA pA) } { ({ apiKey := ak, jwt := some t, maxRetries := m + 1, retryDelay := rd, autoRefreshToken := true } : ClientState) with jwt := none } 2 _ hIB1]
  refine ⟨?_, ?_, ?_, ?_, ?_⟩ <;> rw [hmain] <;> rfl

/-- C9, counterexample: a 200 response whose body fails to parse is
surfaced with `statusCode` 0 — `response.json()` throws before the `ok`
check, and the resulting `SyntaxError` lands in the final catch branch,
which attaches status 0 and the exception — not with the response's
own status 200 as the claim requires. -/
theorem c9_counterexample :
    (request malformed200Transport true true true Target.main tokState 0).result =
      .error (parseFailure "not json") ∧
    (parseFailure "not json").statusCode = some 0 ∧
    (parseFailure "not json").statusCode ≠ some 200 := by
  refine ⟨rfl, rfl, by decide⟩

/-- A refresh exchange against a server constantly answering a non-ok
parseable response fails at its first attempt with the status and body
of that response. -/
theorem innerLoop_const_notok (s : Nat) (msg : Option String) (payload : Payload)
    (m a k : Nat) (st : ClientState) (hjs : st.jwt.isSome = true)
    (hok : respOk s = false) :
    reqLoopCore (constTransport (FetchResult.response s (JsonBody.parsed msg payload))) dummyRefresh false true false Target.refresh (m + 1) a st k none =
      { result := .error { message := errMessage msg s, statusCode := some s, responseBody := some (JsonBody.parsed msg payload) }, st := st, k := k + 1
        trace := [Ev.send Target.refresh, Ev.recv Target.refresh (FetchResult.response s (JsonBody.parsed msg payload))] } := by
  have hF : iterFetch (constTransport (FetchResult.response s (JsonBody.parsed msg payload))) false true false Target.refresh a st k =
      (.failed { message := errMessage msg s, statusCode := some s, responseBody := some (JsonBody.parsed msg payload) }, st, k + 1,
        [Ev.send Target.refresh, Ev.recv Target.refresh (FetchResult.response s (JsonBody.parsed msg payload))]) := by
    rw [iterFetch, if_neg (by simp [hjs])]
    dsimp only
    rw [show (constTransport (FetchResult.response s (JsonBody.parsed msg payload))) k = (FetchResult.response s (JsonBody.parsed msg payload)) from rfl]
    simp only [evalResponse]
    rw [if_neg (by simp [hok]), handleSbe_false]
  have hIB : iterBody (constTransport (FetchResult.response s (JsonBody.parsed msg payload))) dummyRefresh false true false Target.refresh a st k none =
      (.failed { message := errMessage msg s, statusCode := some s, responseBody := some (JsonBody.parsed msg payload) }, st, k + 1,
        [Ev.send Target.refresh, Ev.recv Target.refresh (FetchResult.response s (JsonBody.parsed msg payload))]) := by
    simp only [iterBody]
    exact hF
  exact reqLoopCore_succ_failed (constTransport (FetchResult.response s (JsonBody.parsed msg payload))) dummyRefresh false true false Target.refresh m a st k none
    { message := errMessage msg s, statusCode := some s, responseBody := some (JsonBody.parsed msg payload) } st (k + 1) _ hIB

/-- Any run of the main loop against a server constantly answering a
non-ok parseable response ends with the error carrying that response's
status code and parsed body — whether it was retried, refreshed, or
surfaced immediately. -/
theorem loop_const_notok (s : Nat) (msg : Option String) (payload : Payload)
    (roa : Bool) (hok : respOk s = false) :
    ∀ (fuel a : Nat) (st : ClientState) (k : Nat),
      ((reqLoopCore (constTransport (FetchResult.response s (JsonBody.parsed msg payload))) (refreshTokenInternal (constTransport (FetchResult.response s (JsonBody.parsed msg payload)))) roa true true Target.main fuel a st k
          (some { message := errMessage msg s, statusCode := some s, responseBody := some (JsonBody.parsed msg payload) })).result = .error { message := errMessage msg s, statusCode := some s, responseBody := some (JsonBody.parsed msg payload) }) ∧
      (1 ≤ fuel →
        (reqLoopCore (constTransport (FetchResult.response s (JsonBody.parsed msg payload))) (refreshTokenInternal (constTransport (FetchResult.response s (JsonBody.parsed msg payload)))) roa true true Target.main fuel a st k
          none).result = .error { message := errMessage msg s, statusCode := some s, responseBody := some (JsonBody.parsed msg payload) }) := by
  intro fuel
  induction fuel with
  | zero =>
    intro a st k
    constructor
    · rw [reqLoopCore_zero]
      rfl
    · intro h; exact absurd h (by omega)
  | succ fuel ih =>
    intro a st k
    have hIterF : ∀ (a2 k2 : Nat) (st2 : ClientState), ∃ io k' tr,
        iterFetch (constTransport (FetchResult.response s (JsonBody.parsed msg payload))) roa true true Target.main a2 st2 k2 = (io, st2, k', tr) ∧
        (io = IterOut.failed { message := errMessage msg s, statusCode := some s, responseBody := some (JsonBody.parsed msg payload) } ∨ io = IterOut.again { message := errMessage msg s, statusCode := some s, responseBody := some (JsonBody.parsed msg payload) } (st2.retryDelay * 2 ^ a2)) := by
      intro a2 k2 st2
      rcases hF : iterFetch (constTransport (FetchResult.response s (JsonBody.parsed msg payload))) roa true true Target.main a2 st2 k2 with ⟨io, st', k', tr⟩
      have hst : st' = st2 :=
        (iterFetch_char (constTransport (FetchResult.response s (JsonBody.parsed msg payload))) roa true true Target.main a2 st2 k2 io st' k' tr hF).1
      subst hst
      refine ⟨io, k', tr, rfl, ?_⟩
      rw [iterFetch, if_neg (by simp)] at hF
      dsimp only at hF
      rw [show (constTransport (FetchResult.response s (JsonBody.parsed msg payload))) k2 = (FetchResult.response s (JsonBody.parsed msg payload)) from rfl] at hF
      simp only [evalResponse] at hF
      rw [if_neg (by simp [hok])] at hF
      rcases handleSbe_eq st' roa a2 { message := errMessage msg s, statusCode := some s, responseBody := some (JsonBody.parsed msg payload) } with hs | ⟨hs, _, _, _⟩ <;>
        rw [hs] at hF <;> simp only [Prod.mk.injEq] at hF
      · exact Or.inl hF.1.symm
      · exact Or.inr hF.1.symm
    have hfromFetch : ∀ (io : IterOut) (st' : ClientState) (k' : Nat) (tr : List Ev)
        (le : Option SbError),
        iterBody (constTransport (FetchResult.response s (JsonBody.parsed msg payload))) (refreshTokenInternal (constTransport (FetchResult.response s (JsonBody.parsed msg payload)))) roa true true Target.main a st k le =
          (io, st', k', tr) →
        (io = IterOut.failed { message := errMessage msg s, statusCode := some s, responseBody := some (JsonBody.parsed msg payload) } ∨ io = IterOut.again { message := errMessage msg s, statusCode := some s, responseBody := some (JsonBody.parsed msg payload) } (st.retryDelay * 2 ^ a) ∨
          ∃ d, io = IterOut.again { message := errMessage msg s, statusCode := some s, responseBody := some (JsonBody.parsed msg payload) } d) →
        (reqLoopCore (constTransport (FetchResult.response s (JsonBody.parsed msg payload))) (refreshTokenInternal (constTransport (FetchResult.response s (JsonBody.parsed msg payload)))) roa true true Target.main (fuel + 1) a st k
          le).result = .error { message := errMessage msg s, statusCode := some s, responseBody := some (JsonBody.parsed msg payload) } := by
      intro io st' k' tr le hIB hio
      rcases hio with hio | hio | ⟨d, hio⟩
      · rw [hio] at hIB
        rw [reqLoopCore_succ_failed (constTransport (FetchResult.response s (JsonBody.parsed msg payload))) (refreshTokenInternal (constTransport (FetchResult.response s (JsonBody.parsed msg payload)))) roa true true Target.main
          fuel a st k le { message := errMessage msg s, statusCode := some s, responseBody := some (JsonBody.parsed msg payload) } st' k' tr hIB]
      · rw [hio] at hIB
        rw [reqLoopCore_succ_again (constTransport (FetchResult.response s (JsonBody.parsed msg payload))) (refreshTokenInternal (constTransport (FetchResult.response s (JsonBody.parsed msg payload)))) roa true true Target.main
          fuel a st k le { message := errMessage msg s, statusCode := some s, responseBody := some (JsonBody.parsed msg payload) } (st.retryDelay * 2 ^ a) st' k' tr hIB]
        exact (ih (a + 1) st' k').1
      · rw [hio] at hIB
        rw [reqLoopCore_succ_again (constTransport (FetchResult.response s (JsonBody.parsed msg payload))) (refreshTokenInternal (constTransport (FetchResult.response s (JsonBody.parsed msg payload)))) roa true true Target.main
          fuel a st k le { message := errMessage msg s, statusCode := some s, responseBody := some (JsonBody.parsed msg payload) } d st' k' tr hIB]
        exact (ih (a + 1) st' k').1
    constructor
    · by_cases hg : (decide (0 < a) && (({ message := errMessage msg s, statusCode := some s, responseBody := some (JsonBody.parsed msg payload) } : SbError).statusCode == some 401) &&
          st.jwt.isSome && st.autoRefreshToken && roa) = true
      · have hj : st.jwt.isSome = true := by
          simp only [Bool.and_eq_true] at hg
          exact hg.1.1.2
        obtain ⟨j, hjj⟩ := Option.isSome_iff_exists.mp hj
        have hInner := innerLoop_const_notok s msg payload st.maxRetries 0 k st hj hok
        have hRT := refreshTokenInternal_eq_error (constTransport (FetchResult.response s (JsonBody.parsed msg payload))) st k j { message := errMessage msg s, statusCode := some s, responseBody := some (JsonBody.parsed msg payload) } st (k + 1)
          [Ev.send Target.refresh, Ev.recv Target.refresh (FetchResult.response s (JsonBody.parsed msg payload))] hjj hInner
        rcases handleSbe_eq { st with jwt := none } roa a { message := errMessage msg s, statusCode := some s, responseBody := some (JsonBody.parsed msg payload) } with hs | ⟨hs, _, _, _⟩
        · have hIB : iterBody (constTransport (FetchResult.response s (JsonBody.parsed msg payload))) (refreshTokenInternal (constTransport (FetchResult.response s (JsonBody.parsed msg payload)))) roa true true Target.main a st k
              (some { message := errMessage msg s, statusCode := some s, responseBody := some (JsonBody.parsed msg payload) }) =
              (.failed { message := errMessage msg s, statusCode := some s, responseBody := some (JsonBody.parsed msg payload) }, { st with jwt := none }, k + 1,
                Ev.refreshCall ::
                  ([Ev.send Target.refresh, Ev.recv Target.refresh (FetchResult.response s (JsonBody.parsed msg payload))] ++ [Ev.clearJwtEv])) := by
            simp only [iterBody]
            rw [if_pos hg, hRT]
            dsimp only
            rw [hs]
          exact hfromFetch _ _ _ _ _ hIB (Or.inl rfl)
        · have hIB : iterBody (constTransport (FetchResult.response s (JsonBody.parsed msg payload))) (refreshTokenInternal (constTransport (FetchResult.response s (JsonBody.parsed msg payload)))) roa true true Target.main a st k
              (some { message := errMessage msg s, statusCode := some s, responseBody := some (JsonBody.parsed msg payload) }) =
              (.again { message := errMessage msg s, statusCode := some s, responseBody := some (JsonBody.parsed msg payload) } (({ st with jwt := none } : ClientState).retryDelay * 2 ^ a),
                { st with jwt := none }, k + 1,
                Ev.refreshCall ::
                  ([Ev.send Target.refresh, Ev.recv Target.refresh (FetchResult.response s (JsonBody.parsed msg payload))] ++ [Ev.clearJwtEv])) := by
            simp only [iterBody]
            rw [if_pos hg, hRT]
            dsimp only
            rw [hs]
          exact hfromFetch _ _ _ _ _ hIB (Or.inr (Or.inr ⟨_, rfl⟩))
      · obtain ⟨io, k', tr, hF, hio⟩ := hIterF a k st
        have hIB : iterBody (constTransport (FetchResult.response s (JsonBody.parsed msg payload))) (refreshTokenInternal (constTransport (FetchResult.response s (JsonBody.parsed msg payload)))) roa true true Target.main a st k
            (some { message := errMessage msg s, statusCode := some s, responseBody := some (JsonBody.parsed msg payload) }) = (io, st, k', tr) := by
          simp only [iterBody]
          rw [if_neg hg]
          exact hF
        rcases hio with hio | hio
        · exact hfromFetch _ _ _ _ _ hIB (Or.inl hio)
        · exact hfromFetch _ _ _ _ _ hIB (Or.inr (Or.inl hio))
    · intro _
      obtain ⟨io, k', tr, hF, hio⟩ := hIterF a k st
      have hIB : iterBody (constTransport (FetchResult.response s (JsonBody.parsed msg payload))) (refreshTokenInternal (constTransport (FetchResult.response s (JsonBody.parsed msg payload)))) roa true true Target.main a st k
          none = (io, st, k', tr) := by
        simp only [iterBody]
        exact hF
      rcases hio with hio | hio
      · exact hfromFetch _ _ _ _ _ hIB (Or.inl hio)
      · exact hfromFetch _ _ _ _ _ hIB (Or.inr (Or.inl hio))

/-- Any run of the main loop against a transport that always fails at
the network level ends with the network error (status 0). -/
theorem loop_const_netfail (roa : Bool) :
    ∀ (fuel a : Nat) (st : ClientState) (k : Nat),
      ((reqLoopCore (constTransport .netFail) (refreshTokenInternal (constTransport .netFail))
          roa true true Target.main fuel a st k (some netError)).result = .error netError) ∧
      (1 ≤ fuel →
        (reqLoopCore (constTransport .netFail) (refreshTokenInternal (constTransport .netFail))
          roa true true Target.main fuel a st k none).result = .error netError) := by
  intro fuel
  induction fuel with
  | zero =>
    intro a st k
    constructor
    · rw [reqLoopCore_zero]
      rfl
    · intro h; exact absurd h (by omega)
  | succ fuel ih =>
    intro a st k
    have hIterF : ∃ io k' tr,
        iterFetch (constTransport .netFail) roa true true Target.main a st k = (io, st, k', tr) ∧
        (io = IterOut.failed netError ∨
          io = IterOut.again netError (st.retryDelay * 2 ^ a)) := by
      rcases hF : iterFetch (constTransport .netFail) roa true true Target.main a st k with
        ⟨io, st', k', tr⟩
      have hst : st' = st :=
        (iterFetch_char (constTransport .netFail) roa true true Target.main a st k io st' k' tr hF).1
      subst hst
      refine ⟨io, k', tr, rfl, ?_⟩
      rw [iterFetch, if_neg (by simp)] at hF
      dsimp only at hF
      rw [show constTransport FetchResult.netFail k = FetchResult.netFail from rfl] at hF
      simp only [evalResponse] at hF
      rcases handleNet_eq st' a with hn | ⟨hn, _⟩ <;>
        rw [hn] at hF <;> simp only [Prod.mk.injEq] at hF
      · exact Or.inl hF.1.symm
      · exact Or.inr hF.1.symm
    obtain ⟨io, k', tr, hF, hio⟩ := hIterF
    have hcont : ∀ (le : Option SbError),
        iterBody (constTransport .netFail) (refreshTokenInternal (constTransport .netFail))
          roa true true Target.main a st k le = (io, st, k', tr) →
        (reqLoopCore (constTransport .netFail) (refreshTokenInternal (constTransport .netFail))
          roa true true Target.main (fuel + 1) a st k le).result = .error netError := by
      intro le hIB
      rcases hio with hio | hio
      · rw [hio] at hIB
        rw [reqLoopCore_succ_failed (constTransport .netFail)
          (refreshTokenInternal (constTransport .netFail)) roa true true Target.main
          fuel a st k le netError st k' tr hIB]
      · rw [hio] at hIB
        rw [reqLoopCore_succ_again (constTransport .netFail)
          (refreshTokenInternal (constTransport .netFail)) roa true true Target.main
          fuel a st k le netError (st.retryDelay * 2 ^ a) st k' tr hIB]
        exact (ih (a + 1) st k').1
    constructor
    · apply hcont (some netError)
      simp only [iterBody]
      rw [if_neg (by simp [netError])]
      exact hF
    · intro _
      apply hcont none
      simp only [iterBody]
      exact hF

/-- C9, amended: every surfaced error of an exchange that completed
with a non-ok parseable response carries that response's status code
and its parsed body (also through retries and a failed refresh, which
rethrows the original error), and a run whose transport always fails at
the network level surfaces status 0; but a response body that fails to
parse is surfaced with status 0 and without the body, regardless of the
response's status (see the counterexample). -/
theorem c9_amended_errors_carry_status (s : Nat) (msg : Option String) (payload : Payload)
    (roa : Bool) (st st2 : ClientState) (k k2 : Nat) (hok : respOk s = false) :
    (request (constTransport (FetchResult.response s (JsonBody.parsed msg payload))) roa true true Target.main st k).result = .error { message := errMessage msg s, statusCode := some s, responseBody := some (JsonBody.parsed msg payload) } ∧
    (request (constTransport .netFail) roa true true Target.main st2 k2).result =
      .error netError := by
  constructor
  · unfold request
    exact (loop_const_notok s msg payload roa hok (st.maxRetries + 1) 0 st k).2 (by omega)
  · unfold request
    exact (loop_const_netfail roa (st2.maxRetries + 1) 0 st2 k2).2 (by omega)

/-- C9, amended, witness: a 503 with a parseable body surfaces with
status 503 and that body; constant network failure surfaces status 0. -/
theorem c9_amended_errors_carry_status_witness :
    respOk 503 = false ∧
    ((request (constTransport (FetchResult.response 503 (JsonBody.parsed (some "oops") Payload.obj)))
        true true true Target.main tokState 0).result =
      .error { message := errMessage (some "oops") 503, statusCode := some 503
               responseBody := some (JsonBody.parsed (some "oops") Payload.obj) } ∧
    (request (constTransport .netFail) true true true Target.main noCredState 5).result =
      .error netError) :=
  ⟨by decide,
   c9_amended_errors_carry_status 503 (some "oops") Payload.obj true tokState noCredState 0 5 (by decide)⟩

/-- C2, witness: with the default configuration (positive base delay)
against a constantly failing server, the backoff waits of the request
are strictly increasing. -/
theorem c2_exponential_backoff_witness :
    0 < tokState.retryDelay ∧
    (sleepsOf Target.main (request resp500Transport true true true Target.main tokState 0).trace).Pairwise
      (· < ·) :=
  ⟨by decide, (c2_exponential_backoff resp500Transport true true true tokState 0).2.2 (by decide)⟩

/-- The POST of `createEvent` never changes the API key. -/
theorem createEventPost_apiKey (T : Nat → FetchResult) (st : ClientState) :
    (createEventPost T st).st.apiKey = st.apiKey := by
  unfold createEventPost request
  exact loop_apiKey T true true true Target.eventsPost (st.maxRetries + 1) 0 st 0 none

/-- If the POST of `createEvent` succeeds and a JWT was present, a JWT
is still present afterwards. -/
theorem createEventPost_ok_jwt (T : Nat → FetchResult) (st : ClientState)
    (hj : st.jwt.isSome = true) (hok : exOk (createEventPost T st).result = true) :
    (createEventPost T st).st.jwt.isSome = true := by
  unfold createEventPost request at hok ⊢
  exact loop_ok_jwt T true true true Target.eventsPost (st.maxRetries + 1) 0 st 0 none hj hok

/-- `getAuthHeader` resolves a header exactly when an API key or a JWT
is present. -/
theorem getAuthHeaderOpt_isSome_iff (st : ClientState) :
    (getAuthHeaderOpt st).isSome = (st.apiKey.isSome || st.jwt.isSome) := by
  unfold getAuthHeaderOpt
  cases hak : st.apiKey <;> cases hjw : st.jwt <;> rfl

/-- After a successful POST of `createEvent`, the client still resolves
an Authorization header. -/
theorem createEventPost_cred (T : Nat → FetchResult) (st : ClientState)
    (hcred : (getAuthHeaderOpt st).isSome = true)
    (hok : exOk (createEventPost T st).result = true) :
    (getAuthHeaderOpt (createEventPost T st).st).isSome = true := by
  rw [getAuthHeaderOpt_isSome_iff] at hcred ⊢
  rw [createEventPost_apiKey]
  cases hak : st.apiKey with
  | some key => simp [hak]
  | none =>
    have hj : st.jwt.isSome = true := by simpa [hak] using hcred
    have hj2 := createEventPost_ok_jwt T st hj hok
    simp [hj2]

/-- C10: whenever `createEvent` holds a credential and its POST
succeeds, the client issues at least one additional physical
`GET /v1/events` send after the POST; and when the created event id is
not found by that follow-up fetch (because the fetch failed or its list
misses the id), `createEvent` still resolves successfully with the
synthesized fallback event, whose `projectId` is the empty string and
whose `createdAt` is the locally generated timestamp `now`, not a
server value. -/
theorem c10_createEvent_followup_and_fallback (T : Nat → FetchResult) (st : ClientState)
    (uid nm : String) (v : Option Int) (md : Option (List (String × String))) (now : String)
    (hcred : (getAuthHeaderOpt st).isSome = true)
    (hpost : exOk (createEventPost T st).result = true) :
    1 ≤ countSends Target.eventsGet (createEvent T st uid nm v md now).trace ∧
    (foundCreatedEvent T st = none →
      (createEvent T st uid nm v md now).result = .ok (fallbackEvent T st uid nm v md now)) ∧
    (fallbackEvent T st uid nm v md now).projectId = "" ∧
    (fallbackEvent T st uid nm v md now).createdAt = now := by
  obtain ⟨h0, hga⟩ := Option.isSome_iff_exists.mp hcred
  have hcred2 := createEventPost_cred T st hcred hpost
  obtain ⟨h2, hga2⟩ := Option.isSome_iff_exists.mp hcred2
  rcases hO1 : createEventPost T st with ⟨res1, st1, k1, tr1⟩
  rw [hO1] at hpost hga2
  dsimp only at hpost hga2
  cases res1 with
  | error e => simp [exOk] at hpost
  | ok b =>
    rcases hO2 : request T true true true Target.eventsGet st1 k1 with ⟨res2, st2, k2, tr2⟩
    have hcid : createdEventId T st = b.eventIdField := by
      unfold createdEventId
      rw [hO1]
    have hsend2 : 1 ≤ countSends Target.eventsGet tr2 := by
      have h := loop_first_send T true true Target.eventsGet st1.maxRetries 0 st1 k1
      unfold request at hO2
      rw [hO2] at h
      dsimp only at h
      exact h
    cases res2 with
    | error e2 =>
      have hCE : createEvent T st uid nm v md now =
          { result := .ok { id := b.eventIdField, projectId := "", userId := some uid
                            name := nm, value := v, metadata := md, createdAt := now }
            st := st2, trace := tr1 ++ tr2 } := by
        simp only [createEvent, hga, hO1, hga2, hO2]
      refine ⟨?_, ?_, rfl, rfl⟩
      · rw [hCE]
        dsimp only
        rw [countSends_append]
        omega
      · intro _
        rw [hCE]
        unfold fallbackEvent
        rw [hcid]
    | ok b2 =>
      rcases hfind2 : b2.eventsField.find? (fun e => e.id == b.eventIdField) with _ | ev
      · have hCE : createEvent T st uid nm v md now =
            { result := .ok { id := b.eventIdField, projectId := "", userId := some uid
                              name := nm, value := v, metadata := md, createdAt := now }
              st := st2, trace := tr1 ++ tr2 } := by
          simp only [createEvent, hga, hO1, hga2, hO2, hfind2]
        refine ⟨?_, ?_, rfl, rfl⟩
        · rw [hCE]
          dsimp only
          rw [countSends_append]
          omega
        · intro _
          rw [hCE]
          unfold fallbackEvent
          rw [hcid]
      · have hCE : createEvent T st uid nm v md now =
            { result := .ok ev, st := st2, trace := tr1 ++ tr2 } := by
          simp only [createEvent, hga, hO1, hga2, hO2, hfind2]
        have hfd : foundCreatedEvent T st = some ev := by
          simp only [foundCreatedEvent, createEventFetch, hO1, hO2, hcid, hfind2]
        refine ⟨?_, ?_, rfl, rfl⟩
        · rw [hCE]
          dsimp only
          rw [countSends_append]
          omega
        · intro hn
          rw [hfd] at hn
          cases hn

/-- C10, witness: against a server that accepts the POST with event id
"e1" and answers the follow-up fetch with an empty list, `createEvent`
sends the extra GET and resolves with the synthesized fallback. -/
theorem c10_createEvent_followup_and_fallback_witness :
    ((getAuthHeaderOpt tokState).isSome = true ∧
     exOk (createEventPost c10Transport tokState).result = true ∧
     foundCreatedEvent c10Transport tokState = none) ∧
    1 ≤ countSends Target.eventsGet
      (createEvent c10Transport tokState "u" "n" none none "2026-01-01T00:00:00Z").trace ∧
    (createEvent c10Transport tokState "u" "n" none none "2026-01-01T00:00:00Z").result =
      .ok (fallbackEvent c10Transport tokState "u" "n" none none "2026-01-01T00:00:00Z") :=
  ⟨⟨rfl, rfl, rfl⟩,
   (c10_createEvent_followup_and_fallback c10Transport tokState "u" "n" none none
     "2026-01-01T00:00:00Z" rfl rfl).1,
   (c10_createEvent_followup_and_fallback c10Transport tokState "u" "n" none none
     "2026-01-01T00:00:00Z" rfl rfl).2.1 rfl⟩

end Skillbase
